import Mathlib

/-!
Verification of the Bedrock usage detector
(`src/mcp_cost_optim_genai/detectors/bedrock_detector.py`).

The Python module is shallowly embedded over `Str := List Char`.  Regex
patterns are hand-compiled to executable matchers that reproduce the
semantics of Python's `re` module on the concrete patterns used by the
detector (greedy maximal munch where the following token excludes the
class, explicit backtracking where the pattern needs it, first-match-wins
alternation, non-overlapping left-to-right `finditer`).  Character classes
are interpreted over ASCII, matching the detector's intended inputs.

Free-form remediation/guidance text carried by findings (descriptions,
documentation URLs, cost text) is not modelled; every field that any
control-flow decision or claim depends on is.
-/

namespace BD

abbrev Str := List Char

/-- Shorthand: Lean string literal to the `List Char` representation. -/
def lit (s : String) : Str := s.toList

/-- The opening-brace character (spelled via its code point). -/
def braceL : Char := Char.ofNat 123

/-- The closing-brace character (spelled via its code point). -/
def braceR : Char := Char.ofNat 125

/-- The backtick character (spelled via its code point). -/
def btick : Char := Char.ofNat 96

/-- Python `str.lower()` (ASCII model). -/
def pyLower (s : Str) : Str := s.map Char.toLower

/-- Regex class `[a-z0-9]` (no IGNORECASE). -/
def isLowerAlnum (c : Char) : Bool := ('a' ≤ c && c ≤ 'z') || c.isDigit

/-- Regex class `[a-z0-9]` under IGNORECASE, i.e. `[a-zA-Z0-9]`. -/
def isAlnumCI (c : Char) : Bool :=
  ('a' ≤ c && c ≤ 'z') || ('A' ≤ c && c ≤ 'Z') || c.isDigit

/-- Regex class `\w` (ASCII): letters, digits, underscore. -/
def isWordChar (c : Char) : Bool := isAlnumCI c || c = '_'

/-- Regex class `\s` (ASCII): space, tab, newline, CR, FF, VT. -/
def isPySpace (c : Char) : Bool :=
  c = ' ' || c = '\t' || c = '\n' || c = '\x0d' || c = '\x0c' || c = '\x0b'

/-- Regex class `\d` (ASCII). -/
def isPyDigit (c : Char) : Bool := c.isDigit

/-- Case-insensitive character equality (ASCII). -/
def ciEq (a b : Char) : Bool := a.toLower = b.toLower

/-- `pat.isPrefixOf s` for char lists (case-sensitive). -/
def startsWithL (pat s : Str) : Bool := List.isPrefixOf pat s

/-- Case-insensitive version of `startsWithL`. -/
def startsWithCI : Str → Str → Bool
  | [], _ => true
  | _ :: _, [] => false
  | p :: ps, c :: cs => ciEq p c && startsWithCI ps cs

/-- Python's `needle in hay` substring test. -/
def pyIn (needle : Str) : Str → Bool
  | [] => needle.isEmpty
  | c :: t => startsWithL needle (c :: t) || pyIn needle t

/-- Number of `\n` characters in a list. -/
def countNl (s : Str) : Nat := (s.filter (fun c => c = '\n')).length

/-- `content[:pos].count('\n') + 1`, the 1-based line of byte offset `pos`. -/
def lineNum (content : Str) (pos : Nat) : Nat := countNl (content.take pos) + 1

/-- Consume a case-sensitive literal, returning the remaining suffix. -/
def dropL (pat : String) : Str → Option Str := fun s =>
  if startsWithL (lit pat) s then some (s.drop (lit pat).length) else none

/-- Consume a case-sensitive literal given as a char list. -/
def dropLs (pat : Str) (s : Str) : Option Str :=
  if startsWithL pat s then some (s.drop pat.length) else none

/-- Consume a case-insensitive literal. -/
def dropCI (pat : String) : Str → Option Str := fun s =>
  if startsWithCI (lit pat) s then some (s.drop (lit pat).length) else none

/-- Consume one character satisfying a predicate. -/
def dropP (p : Char → Bool) : Str → Option Str
  | [] => none
  | c :: t => if p c then some t else none

/-- Consume one specific character. -/
def dropC (ch : Char) : Str → Option Str := dropP (fun c => c = ch)

/-- Maximal run of characters satisfying `p` (regex `X*` where the
following token is outside the class): returns the run and the rest. -/
def runOf (p : Char → Bool) (s : Str) : Str × Str :=
  (s.takeWhile p, s.dropWhile p)

/-- Regex `\d+` (maximal, at least one digit): captured digits and rest. -/
def digits1 (s : Str) : Option (Str × Str) :=
  let (d, r) := runOf isPyDigit s
  if d.isEmpty then none else some (d, r)

/-- Nonempty maximal run of `p`: run and rest. -/
def run1 (p : Char → Bool) (s : Str) : Option (Str × Str) :=
  let (d, r) := runOf p s
  if d.isEmpty then none else some (d, r)

/-- `re.search`-style leftmost search: try the matcher at every suffix,
left to right (the matcher sees the suffix starting at the candidate
position). -/
def searchM {α : Type} (m : Str → Option α) : Str → Option α
  | [] => m []
  | s@(_ :: t) =>
    match m s with
    | some a => some a
    | none => searchM m t

/-- First element of `alts` that is a case-sensitive prefix of `s`,
together with the rest of `s` (regex alternation of literals whose first
characters are pairwise distinct, hence first-match-wins is exact). -/
def altLit (alts : List String) (s : Str) : Option (Str × Str) :=
  match alts.find? (fun a => startsWithL (lit a) s) with
  | some a => some (lit a, s.drop (lit a).length)
  | none => none

/-- Case-insensitive variant of `altLit`; returns the canonical
(lowercase) spelling of the alternative that matched plus the rest. -/
def altLitCI (alts : List String) (s : Str) : Option (Str × Str) :=
  match alts.find? (fun a => startsWithCI (lit a) s) with
  | some a => some (lit a, s.drop (lit a).length)
  | none => none

/-! ## Parsed model identifiers (`_parse_model_id`) -/

/-- Structured result of `BedrockDetector._parse_model_id`. -/
structure ParsedModelId where
  full_model_id : Str
  provider : Option Str := none
  family : Option Str := none
  version : Option Str := none
  tier : Option Str := none
  region_prefix : Option Str := none
deriving DecidableEq, Repr

instance : Inhabited ParsedModelId := ⟨{ full_model_id := [] }⟩

/-- Region tokens of `^(global|us|eu|apac)\.` in alternation order. -/
def REGION_TOKENS : List String := ["global.", "us.", "eu.", "apac."]

/-- `re.match(r'^(global|us|eu|apac)\.', m)`: strip the matched prefix and
return the captured group (token without the dot). -/
def regionSplit (m : Str) : Option Str × Str :=
  match (REGION_TOKENS.map lit).find? (fun t => startsWithL t m) with
  | some t => (some (t.dropLast), m.drop t.length)
  | none => (none, m)

/-- `re.match(r'^([a-z0-9]+)\.', m)`: the leading `[a-z0-9]+` token when
followed by a dot. -/
def providerOf (m : Str) : Option Str :=
  let (run, rest) := runOf isLowerAlnum m
  if run.isEmpty then none
  else if rest.head? = some '.' then some run else none

/-- Anthropic tier by priority substring containment. -/
def anthTier (m : Str) : Option Str :=
  if pyIn (lit "opus") m then some (lit "opus")
  else if pyIn (lit "sonnet") m then some (lit "sonnet")
  else if pyIn (lit "haiku") m then some (lit "haiku")
  else none

/-- Version capture text `a.b`. -/
def verJoin (a b : Str) : Str := a ++ '.' :: b

/-- `claude-(\d+)-(\d+)-(?:sonnet|haiku|opus)` at a position. -/
def anthP1 (s : Str) : Option Str := do
  let s ← dropL "claude-" s
  let (a, s) ← digits1 s
  let s ← dropC '-' s
  let (b, s) ← digits1 s
  let s ← dropC '-' s
  let _ ← altLit ["sonnet", "haiku", "opus"] s
  pure (verJoin a b)

/-- Exactly eight `\d` characters (`\d{8}`), returning the rest. -/
def digits8 (s : Str) : Option Str :=
  if s.length ≥ 8 && (s.take 8).all isPyDigit then some (s.drop 8) else none

/-- `(?:sonnet|haiku|opus)-(\d+)-(\d+)-\d{8}` at a position. -/
def anthP2 (s : Str) : Option Str := do
  let (_, s) ← altLit ["sonnet", "haiku", "opus"] s
  let s ← dropC '-' s
  let (a, s) ← digits1 s
  let s ← dropC '-' s
  let (b, s) ← digits1 s
  let s ← dropC '-' s
  let _ ← digits8 s
  pure (verJoin a b)

/-- `(?:sonnet|haiku|opus)-(\d+)-\d{8}` at a position (single group). -/
def anthP3 (s : Str) : Option Str := do
  let (_, s) ← altLit ["sonnet", "haiku", "opus"] s
  let s ← dropC '-' s
  let (a, s) ← digits1 s
  let s ← dropC '-' s
  let _ ← digits8 s
  pure a

/-- `claude-(\d+)-(\d+)` at a position. -/
def anthP4 (s : Str) : Option Str := do
  let s ← dropL "claude-" s
  let (a, s) ← digits1 s
  let s ← dropC '-' s
  let (b, _) ← digits1 s
  pure (verJoin a b)

/-- `claude-(\d+\.\d+)` at a position (single group including the dot). -/
def anthP5 (s : Str) : Option Str := do
  let s ← dropL "claude-" s
  let (a, s) ← digits1 s
  let s ← dropC '.' s
  let (b, _) ← digits1 s
  pure (verJoin a b)

/-- The five Anthropic version patterns, searched in order; the first
pattern with a hit wins (the Python `for pattern ... break` loop). -/
def anthVersion (m : Str) : Option Str :=
  (searchM anthP1 m).orElse fun _ =>
  (searchM anthP2 m).orElse fun _ =>
  (searchM anthP3 m).orElse fun _ =>
  (searchM anthP4 m).orElse fun _ =>
  searchM anthP5 m

/-- Nova tier by priority substring containment. -/
def novaTier (m : Str) : Option Str :=
  if pyIn (lit "premier") m then some (lit "premier")
  else if pyIn (lit "pro") m then some (lit "pro")
  else if pyIn (lit "lite") m then some (lit "lite")
  else if pyIn (lit "micro") m then some (lit "micro")
  else if pyIn (lit "canvas") m then some (lit "canvas")
  else if pyIn (lit "reel") m then some (lit "reel")
  else if pyIn (lit "sonic") m then some (lit "sonic")
  else none

/-- `-v(\d+):(\d+)` at a position. -/
def novaVerP (s : Str) : Option Str := do
  let s ← dropL "-v" s
  let (a, s) ← digits1 s
  let s ← dropC ':' s
  let (b, _) ← digits1 s
  pure (verJoin a b)

/-- Titan tier by priority substring containment. -/
def titanTier (m : Str) : Option Str :=
  if pyIn (lit "embed") m then some (lit "embed")
  else if pyIn (lit "text") m then some (lit "text")
  else if pyIn (lit "image") m then some (lit "image")
  else none

/-- `-v(\d+)` at a position. -/
def titanVerP (s : Str) : Option Str := do
  let s ← dropL "-v" s
  let (a, _) ← digits1 s
  pure a

/-- `llama(\d+)(?:-(\d+))?` at a position (greedy optional group). -/
def metaVerP (s : Str) : Option Str := do
  let s ← dropL "llama" s
  let (a, s) ← digits1 s
  match (do let s ← dropC '-' s; let (b, _) ← digits1 s; pure (b : Str)) with
  | some b => pure (verJoin a b)
  | none => pure a

/-- `(\d+)b` at a position. -/
def metaSizeP (s : Str) : Option Str := do
  let (a, s) ← digits1 s
  let _ ← dropC 'b' s
  pure (a ++ ['b'])

/-- `-v(\d+)(?::(\d+))?` at a position (greedy optional group). -/
def genericVerP (s : Str) : Option Str := do
  let s ← dropL "-v" s
  let (a, s) ← digits1 s
  match (do let s ← dropC ':' s; let (b, _) ← digits1 s; pure (b : Str)) with
  | some b => pure (verJoin a b)
  | none => pure a

/-- `BedrockDetector._parse_model_id`: best-effort heuristic parse of a
Bedrock model identifier into structured components.  Never fails (total
function); unrecognized parts stay `none`. -/
def parse_model_id (model_id : Str) : ParsedModelId :=
  let model_lower := pyLower model_id
  let rs := regionSplit model_lower
  let m := rs.2
  let base : ParsedModelId :=
    { full_model_id := model_id, provider := providerOf m, region_prefix := rs.1 }
  if pyIn (lit "anthropic") m then
    { base with family := some (lit "claude"), tier := anthTier m,
                version := anthVersion m }
  else if pyIn (lit "amazon") m then
    if pyIn (lit "nova") m then
      { base with family := some (lit "nova"), tier := novaTier m,
                  version := searchM novaVerP m }
    else if pyIn (lit "titan") m then
      { base with family := some (lit "titan"), tier := titanTier m,
                  version := searchM titanVerP m }
    else base
  else if pyIn (lit "meta") m then
    { base with family := some (lit "llama"), version := searchM metaVerP m,
                tier := searchM metaSizeP m }
  else if pyIn (lit "mistral") m || pyIn (lit "cohere") m || pyIn (lit "ai21") m then
    { base with family := base.provider, version := searchM genericVerP m }
  else base

/-! ## Generic `re.finditer` engine -/

/-- One raw regex match: start offset, matched length, and a
pattern-specific payload (captures). -/
structure MRes (α : Type) where
  start : Nat
  len : Nat
  val : α
deriving DecidableEq, Repr

/-- Non-overlapping left-to-right scan (`re.finditer`): try the matcher at
every position; on a hit, record it and resume after the matched text.
The matcher receives the character immediately before the candidate
position (for `\b` assertions) and the suffix starting at it.  The
recursion is driven by explicit fuel (kept structural so terms reduce in
the kernel); one unit of fuel is spent per position advanced, so any
fuel exceeding the remaining length is adequate. -/
def findAllAux {α : Type} (m : Option Char → Str → Option (Nat × α)) :
    Nat → Option Char → Str → Nat → List (MRes α)
  | 0, _, _, _ => []
  | _ + 1, _, [], _ => []
  | fuel + 1, prev, c :: t, off =>
    match m prev (c :: t) with
    | some (n, a) =>
      if n = 0 then
        { start := off, len := n, val := a } ::
          findAllAux m fuel (some c) t (off + 1)
      else
        { start := off, len := n, val := a } ::
          findAllAux m fuel (((c :: t).take n).getLast?) ((c :: t).drop n)
            (off + n)
    | none => findAllAux m fuel (some c) t (off + 1)

/-- All matches of `m` in `content`. -/
def findAll {α : Type} (m : Option Char → Str → Option (Nat × α))
    (content : Str) : List (MRes α) :=
  findAllAux m (content.length + 1) none content 0

/-- Lift a position-independent matcher (no boundary assertions). -/
def noB {α : Type} (m : Str → Option (Nat × α)) :
    Option Char → Str → Option (Nat × α) := fun _ s => m s

/-- First match of `m` in `content` (i.e. `re.search` as a Boolean). -/
def hasMatch {α : Type} (m : Str → Option (Nat × α)) (content : Str) : Bool :=
  (searchM m content).isSome

/-! ## Data model -/

/-- Result of `BedrockDetector._analyze_model_tier`. -/
structure ModelTier where
  tier : Str
  model_family : Str
  tier_name : Str
  version : Option Rat := none
deriving DecidableEq, Repr

/-- Result of the prompt-staticness analyses. -/
structure StaticnessResult where
  is_static : Bool
  confidence : Str
  indicators : List Str
  system_prompts_found : Nat
  dynamic_variables : List Str
deriving DecidableEq, Repr

/-- A prompt found by `_find_prompts` (regex fallback path):
`{"text":…, "length":…, "line":…, "start":…, "end":…}`. -/
structure PromptInfo where
  text : Str
  length : Nat
  line : Nat
  start : Nat
  endPos : Nat
deriving DecidableEq, Repr

/-- One detector finding.  Python represents findings as string-keyed
dicts with heterogeneous, finding-type-specific payloads; here every
key that any control-flow decision or claim touches is a typed optional
field (`none` = key absent).  `line` is doubly optional because the
`dynamic_system_prompt` finding can carry the key with value `None`.
Free-text payload entries (descriptions, remediation guidance, pricing
text, documentation links) are not modelled. -/
structure Finding where
  type : Str
  file : Str := []
  line : Option (Option Nat) := none
  severity : Option Str := none
  subtype : Option Str := none
  service : Option Str := none
  model_id : Option Str := none
  parsed : Option ParsedModelId := none
  is_cross_region : Option Bool := none
  cross_region_type : Option Str := none
  profile_type : Option Str := none
  region_prefix : Option Str := none
  model_tier : Option Str := none
  model_family : Option Str := none
  tier_name : Option Str := none
  streaming : Option Bool := none
  streaming_status : Option Str := none
  call_type : Option Str := none
  pattern : Option Str := none
  api_style : Option Str := none
  bedrock_confirmed : Option Bool := none
  max_tokens : Option Nat := none
  estimated_static_tokens : Option Nat := none
  dynamic_variables : Option (List Str) := none
  system_prompts_found : Option Nat := none
  prompt_analysis : Option StaticnessResult := none
  router_arn : Option Str := none
  models_detected : Option (List Str) := none
  tiers_detected : Option (List Str) := none
  current_model : Option Str := none
  current_model_display : Option Str := none
  current_tier : Option Str := none
  tier_level : Option Str := none
  complexity_min : Option Nat := none
  complexity_max : Option Nat := none
  complexity_range : Option Nat := none
  prompt_count : Option Nat := none
  service_tier : Option Str := none
  tier_category : Option Str := none
  api_call : Option Str := none
  file_link : Option Str := none
deriving DecidableEq, Repr

instance : Inhabited Finding := ⟨{ type := [] }⟩

/-! ## `_analyze_model_tier` -/

/-- Numeric value of a digit string. -/
def digitsToNat (d : Str) : Nat :=
  d.foldl (fun acc c => acc * 10 + (c.toNat - 48)) 0

/-- `claude-(\d+(?:\.\d+)?)` at a position: integer digits plus optional
fractional digits. -/
def claudeVerP (s : Str) : Option (Str × Option Str) := do
  let s ← dropL "claude-" s
  let (a, s) ← digits1 s
  match (do let s ← dropC '.' s; let (b, _) ← digits1 s; pure (b : Str)) with
  | some b => pure (a, some b)
  | none => pure (a, none)

/-- Exact rational value of a captured decimal version literal.  Python
stores `float(...)`; for the short decimal versions that occur in model
identifiers the comparisons performed on them (`≥ 4.0`, `≥ 3.7`, `≥ 3.5`)
agree with exact rational arithmetic. -/
def verRat : Str × Option Str → Rat
  | (a, none) => (digitsToNat a : Rat)
  | (a, some b) => (digitsToNat a : Rat) + (digitsToNat b : Rat) / ((10 : Rat) ^ b.length)

/-- Drop trailing zeros of a fraction part (Python float `str()` of the
small decimal literals at hand). -/
def trimZeros (b : Str) : Str :=
  let r := (b.reverse.dropWhile (fun c => c = '0')).reverse
  if r.isEmpty then ['0'] else r

/-- Render the parsed version the way Python's f-string renders the float
(`3.7`, `4.0`, …). -/
def verFmt : Str × Option Str → Str
  | (a, none) => a ++ lit ".0"
  | (a, some b) => a ++ '.' :: trimZeros b

/-- `BedrockDetector._analyze_model_tier`: cost-tier classification, a
pure function of the lowercased model string. -/
def analyze_model_tier (model_id : Str) : ModelTier :=
  let ml := pyLower model_id
  if pyIn (lit "claude") ml then
    let cap := searchM claudeVerP ml
    let version : Rat := match cap with | some c => verRat c | none => 3
    let vstr : Str := match cap with | some c => verFmt c | none => lit "3.0"
    if pyIn (lit "opus") ml || pyIn (lit "4-") ml || pyIn (lit "4.") ml ||
        version ≥ 4 then
      { tier := lit "ultra-premium", model_family := lit "anthropic-claude",
        tier_name := if version ≥ 4 then lit "Opus/Claude " ++ vstr
                     else lit "Opus/Claude 4",
        version := some version }
    else if pyIn (lit "sonnet") ml then
      { tier := lit "premium", model_family := lit "anthropic-claude",
        tier_name := if version ≥ 37 / 10 then lit "Sonnet " ++ vstr
                     else if version ≥ 7 / 2 then lit "Sonnet 3.5"
                     else lit "Sonnet",
        version := some version }
    else if pyIn (lit "haiku") ml then
      { tier := lit "cost-effective", model_family := lit "anthropic-claude",
        tier_name := if version ≥ 7 / 2 then lit "Haiku " ++ vstr
                     else lit "Haiku",
        version := some version }
    else
      { tier := lit "unknown", model_family := lit "anthropic-claude",
        tier_name := lit "Unknown Claude tier", version := some version }
  else if pyIn (lit "nova") ml then
    if pyIn (lit "premier") ml then
      { tier := lit "ultra-premium", model_family := lit "amazon-nova",
        tier_name := lit "Premier" }
    else if pyIn (lit "pro") ml then
      { tier := lit "premium", model_family := lit "amazon-nova",
        tier_name := lit "Pro" }
    else if pyIn (lit "lite") ml then
      { tier := lit "cost-effective", model_family := lit "amazon-nova",
        tier_name := lit "Lite" }
    else if pyIn (lit "micro") ml then
      { tier := lit "ultra-cost-effective", model_family := lit "amazon-nova",
        tier_name := lit "Micro" }
    else
      { tier := lit "unknown", model_family := lit "amazon-nova",
        tier_name := lit "Unknown Nova tier" }
  else if pyIn (lit "llama") ml then
    if pyIn (lit "70b") ml || pyIn (lit "405b") ml then
      { tier := lit "premium", model_family := lit "meta-llama",
        tier_name := lit "Large (70B/405B)" }
    else
      { tier := lit "cost-effective", model_family := lit "meta-llama",
        tier_name := lit "Small (8B)" }
  else
    { tier := lit "unknown", model_family := lit "unknown",
      tier_name := lit "Unknown" }

/-! ## `BEDROCK_MODEL_ID_PATTERN`

`\b((?:global\.|us\.|eu\.|apac\.)?(?:anthropic|amazon|meta|cohere|mistral|ai21|stability|deepseek|openai|qwen|twelvelabs)\.[a-z0-9]+(?:-[a-z0-9]+)+(?:-v\d+:\d+)?(?::\d+k)?(?::mm)?)\b`
compiled case-insensitively.  Greedy `(?:-[a-z0-9]+)+` is tried with as
many segments as possible first; on failure of the trailing optional
groups / word boundary the engine backs off one segment at a time, which
the functions below reproduce exactly. -/

/-- The recognized provider tokens, in alternation order (pairwise
non-prefixing, so at most one can match at a position). -/
def MODEL_PROVIDERS : List String :=
  ["anthropic", "amazon", "meta", "cohere", "mistral", "ai21", "stability",
   "deepseek", "openai", "qwen", "twelvelabs"]

/-- `\b` lookaround: the position between `prev` and the suffix `s` is a
word boundary when exactly one side is a word character.  All uses below
have a word character on the left, so only the right side is tested. -/
def bndRight (s : Str) : Bool :=
  match s.head? with
  | none => true
  | some c => !isWordChar c

/-- Trailing `(?::mm)?\b` with greedy backtracking: length consumed. -/
def midOptMM (s : Str) : Option Nat :=
  match dropCI ":mm" s with
  | some r => if bndRight r then some 3 else if bndRight s then some 0 else none
  | none => if bndRight s then some 0 else none

/-- Trailing `(?::\d+k)?(?::mm)?\b` with greedy backtracking. -/
def midOptK (s : Str) : Option Nat :=
  match (do
    let r ← dropC ':' s
    let (d, r) ← digits1 r
    let r ← dropP (fun c => ciEq c 'k') r
    pure (2 + d.length, r)) with
  | some (n, r) => match midOptMM r with
    | some n2 => some (n + n2)
    | none => midOptMM s
  | none => midOptMM s

/-- Trailing `(?:-v\d+:\d+)?(?::\d+k)?(?::mm)?\b` with greedy
backtracking. -/
def midOptV (s : Str) : Option Nat :=
  match (do
    let r ← dropC '-' s
    let r ← dropP (fun c => ciEq c 'v') r
    let (d1, r) ← digits1 r
    let r ← dropC ':' r
    let (d2, r) ← digits1 r
    pure (4 + d1.length + d2.length, r)) with
  | some (n, r) => match midOptK r with
    | some n2 => some (n + n2)
    | none => midOptK s
  | none => midOptK s

/-- Greedy `(?:-[a-z0-9]+)+` followed by the optional suffixes and the
closing `\b`: consume as many `-run` segments as possible, then back off
one segment at a time until the continuation succeeds.  Returns the total
length consumed from `s`. -/
def modelSegsF : Nat → Str → Option Nat
  | 0, _ => none
  | _, [] => none
  | fuel + 1, c :: t =>
    if c = '-' then
      let seg := t.takeWhile isAlnumCI
      if seg.isEmpty then none
      else
        match modelSegsF fuel (t.dropWhile isAlnumCI) with
        | some n2 => some (1 + seg.length + n2)
        | none => (midOptV (t.dropWhile isAlnumCI)).map
            (fun n2 => 1 + seg.length + n2)
    else none

/-- See `modelSegsF`; every recursive step consumes at least two
characters, so fuel exceeding the length is adequate. -/
def modelSegs (s : Str) : Option Nat := modelSegsF (s.length + 1) s

/-- The model-id matcher (given the previous character for the leading
`\b` and the suffix at the candidate position): returns the matched
length, which is also the length of capture group 1. -/
def modelIdCore (s : Str) : Option Nat := do
  let (prov, r) ← altLitCI MODEL_PROVIDERS s
  let r ← dropC '.' r
  let (name, r) ← run1 isAlnumCI r
  let n ← modelSegs r
  pure (prov.length + 1 + name.length + n)

/-- Full `BEDROCK_MODEL_ID_PATTERN` matcher (leading `\b`, optional
region prefix with backtracking, then the core).  Payload: matched
length (= capture). -/
def modelIdM (prev : Option Char) (s : Str) : Option (Nat × Unit) :=
  if (prev.map isWordChar).getD false then none
  else
    match (REGION_TOKENS.map lit).find? (fun t => startsWithCI t s) with
    | some t =>
      (match modelIdCore (s.drop t.length) with
       | some n => some (t.length + n, ())
       | none => (modelIdCore s).map (fun n => (n, ())))
    | none => (modelIdCore s).map (fun n => (n, ()))

/-- All raw model-id matches in `content` (starts and lengths). -/
def modelIdMatches (content : Str) : List (MRes Unit) :=
  findAll modelIdM content

/-! ## Simple pattern matchers -/

/-- Is `c` one of the two Python quote characters? -/
def isQuote (c : Char) : Bool := c = '"' || c = '\''

/-- Matcher for `NAME\s*\(` (the `INVOKE_PATTERNS` shapes, literal `NAME`
possibly containing escaped dots). -/
def invokeM (pat : String) (s : Str) : Option (Nat × Unit) := do
  let r ← dropL pat s
  let sp := (runOf isPySpace r).1
  let _ ← dropC '(' (r.drop sp.length)
  pure ((lit pat).length + sp.length + 1, ())

/-- `INVOKE_PATTERNS`, in dict insertion order: call-site name paired with
its matcher literal. -/
def INVOKE_PATTERNS : List (String × String) :=
  [("invoke_model", "invoke_model"),
   ("invoke_model_with_response_stream", "invoke_model_with_response_stream"),
   ("converse", "converse"),
   ("converse_stream", "converse_stream"),
   ("chat_completions_create", "chat.completions.create"),
   ("ChatBedrockConverse", "ChatBedrockConverse"),
   ("ChatBedrock", "ChatBedrock"),
   ("BedrockLLM", "BedrockLLM"),
   ("Bedrock", "Bedrock")]

/-- `max_tokens['\"]?\s*[:=]\s*(\d+)` (IGNORECASE): the optional quote is
tried greedily and dropped again if the continuation fails.  Payload: the
captured integer. -/
def maxTokensTail (base : Nat) (r : Str) : Option (Nat × Nat) := do
  let sp1 := (runOf isPySpace r).1
  let r2 ← dropP (fun c => c = ':' || c = '=') (r.drop sp1.length)
  let sp2 := (runOf isPySpace r2).1
  let (d, _) ← digits1 (r2.drop sp2.length)
  pure (base + sp1.length + 1 + sp2.length + d.length, digitsToNat d)

/-- See `maxTokensTail`. -/
def maxTokensM (s : Str) : Option (Nat × Nat) := do
  let r ← dropCI "max_tokens" s
  match dropP isQuote r with
  | some r2 => (maxTokensTail 11 r2).orElse fun _ => maxTokensTail 10 r
  | none => maxTokensTail 10 r

/-- `(us\.)?amazon\.nova-(micro|lite|pro|premier)` (IGNORECASE), with the
greedy optional `us.` prefix backed off if the rest fails. -/
def novaCoreM (s : Str) : Option Nat := do
  let r ← dropCI "amazon.nova-" s
  let (t, _) ← altLitCI ["micro", "lite", "pro", "premier"] r
  pure (12 + t.length)

/-- See `novaCoreM`. -/
def novaM (s : Str) : Option (Nat × Unit) :=
  match dropCI "us." s with
  | some r =>
    (match novaCoreM r with
     | some n => some (3 + n, ())
     | none => (novaCoreM s).map (fun n => (n, ())))
  | none => (novaCoreM s).map (fun n => (n, ()))

/-- `arn:aws:bedrock:[a-z0-9\-]+:\d+:prompt-router/[a-z0-9]+`
(IGNORECASE). -/
def routerArnM (s : Str) : Option (Nat × Unit) := do
  let r ← dropCI "arn:aws:bedrock:" s
  let (reg, r) ← run1 (fun c => isAlnumCI c || c = '-') r
  let r ← dropC ':' r
  let (acct, r) ← digits1 r
  let r ← dropCI ":prompt-router/" r
  let (id, _) ← run1 isAlnumCI r
  pure (16 + reg.length + 1 + acct.length + 15 + id.length, ())

/-! ## The ReDoS-safe unrolled parenthesis group

`[^()]*(?:\([^()]*\)[^()]*)*` followed by `\)`: scans to the first
top-level `)`, allowing one level of nesting; nesting depth ≥ 2 or end of
input makes the whole match fail (no backtracking choice can recover, as
every class excludes both parens). -/

mutual

/-- Top-level scan; returns the group length (the stopping `)` is not
consumed). -/
def unrTop : Str → Option Nat
  | [] => none
  | c :: t =>
    if c = ')' then some 0
    else if c = '(' then (unrNest t).map (fun n => 1 + n)
    else (unrTop t).map (fun n => 1 + n)

/-- Inside a single-level nested group; a second `(` fails the match. -/
def unrNest : Str → Option Nat
  | [] => none
  | c :: t =>
    if c = ')' then (unrTop t).map (fun n => 1 + n)
    else if c = '(' then none
    else (unrNest t).map (fun n => 1 + n)

end

/-- `BedrockModel\s*\(GROUP\)` (DOTALL, case-sensitive).  Payload: the
captured parameter text. -/
def strandsM (s : Str) : Option (Nat × Str) := do
  let r ← dropL "BedrockModel" s
  let sp := (runOf isPySpace r).1
  let r2 ← dropC '(' (r.drop sp.length)
  let n ← unrTop r2
  pure (12 + sp.length + 1 + n + 1, r2.take n)

/-- `model_id\s*=\s*["\']([^"\']+)["\']` searched inside a parameter
capture. -/
def modelIdParamM (s : Str) : Option (Nat × Str) := do
  let r ← dropL "model_id" s
  let sp1 := (runOf isPySpace r).1
  let r2 ← dropC '=' (r.drop sp1.length)
  let sp2 := (runOf isPySpace r2).1
  let r3 ← dropP isQuote (r2.drop sp2.length)
  let (v, r4) ← run1 (fun c => !isQuote c) r3
  let _ ← dropP isQuote r4
  pure (8 + sp1.length + 1 + sp2.length + 1 + v.length + 1, v)

/-- `streaming\s*=\s*(True|False)` (IGNORECASE). -/
def streamingParamM (s : Str) : Option (Nat × Bool) := do
  let r ← dropCI "streaming" s
  let sp1 := (runOf isPySpace r).1
  let r2 ← dropC '=' (r.drop sp1.length)
  let sp2 := (runOf isPySpace r2).1
  let (w, _) ← altLitCI ["true", "false"] (r2.drop sp2.length)
  pure (9 + sp1.length + 1 + sp2.length + w.length, w = lit "true")

/-- `stream\s*=\s*True` (IGNORECASE), used on the OpenAI call context. -/
def streamTrueM (s : Str) : Option (Nat × Unit) := do
  let r ← dropCI "stream" s
  let sp1 := (runOf isPySpace r).1
  let r2 ← dropC '=' (r.drop sp1.length)
  let sp2 := (runOf isPySpace r2).1
  let _ ← dropCI "True" (r2.drop sp2.length)
  pure (6 + sp1.length + 1 + sp2.length + 4, ())

/-! ## System-prompt staticness matchers -/

/-- `system_prompt\s*=\s*`: consumed length and the rest. -/
def sysPromptEq (s : Str) : Option (Nat × Str) := do
  let r ← dropL "system_prompt" s
  let sp1 := (runOf isPySpace r).1
  let r2 ← dropC '=' (r.drop sp1.length)
  let sp2 := (runOf isPySpace r2).1
  pure (13 + sp1.length + 1 + sp2.length, r2.drop sp2.length)

/-- Lazy `.*?STOP` (DOTALL): length consumed up to and including the
first occurrence of `stop`. -/
def minUntil (stop : Str) : Str → Option Nat
  | [] => if stop.isEmpty then some 0 else none
  | s@(_ :: t) =>
    if startsWithL stop s then some stop.length
    else (minUntil stop t).map (fun n => n + 1)

/-- `system_prompt\s*=\s*(f<q><q><q>.*?<q><q><q>)` for a quote char `qc`
(DOTALL).  Payload: the captured f-string literal. -/
def staticTripleM (qc : Char) (s : Str) : Option (Nat × Str) := do
  let (n0, r) ← sysPromptEq s
  let r1 ← dropC 'f' r
  let r2 ← dropLs [qc, qc, qc] r1
  let m ← minUntil [qc, qc, qc] r2
  pure (n0 + 4 + m, 'f' :: qc :: qc :: qc :: r2.take m)

/-- `system_prompt\s*=\s*(f<q>[^<q>]*<q>)` for a quote char `qc`.
Payload: the captured f-string literal. -/
def staticSingleM (qc : Char) (s : Str) : Option (Nat × Str) := do
  let (n0, r) ← sysPromptEq s
  let r1 ← dropC 'f' r
  let r2 ← dropC qc r1
  let inner := (runOf (fun c => c ≠ qc) r2).1
  let _ ← dropC qc (r2.drop inner.length)
  pure (n0 + 3 + inner.length, 'f' :: qc :: (inner ++ [qc]))

/-- `system_prompt\s*=\s*\(GROUP\)` (DOTALL), the Strands parenthesis
concatenation form.  Payload: the captured group. -/
def sysParenM (s : Str) : Option (Nat × Str) := do
  let (n0, r) ← sysPromptEq s
  let r1 ← dropC '(' r
  let n ← unrTop r1
  pure (n0 + 1 + n + 1, r1.take n)

/-- Lazy scan to the first character satisfying `q` whose continuation
`k` succeeds (regex `.*?<class>REST` backtracking).  Returns consumed
length including the class character and the continuation. -/
def lazyClassThen (q : Char → Bool) (k : Str → Option Nat) : Str → Option Nat
  | [] => none
  | c :: t =>
    if q c then
      match k t with
      | some n => some (1 + n)
      | none => (lazyClassThen q k t).map (fun n => n + 1)
    else (lazyClassThen q k t).map (fun n => n + 1)

/-- `system_prompt\s*=\s*["\'].*?["\']\.format\(` (DOTALL, `re.search`
existence). -/
def sysFormatM (s : Str) : Option (Nat × Unit) := do
  let (n0, r) ← sysPromptEq s
  let r1 ← dropP isQuote r
  let n ← lazyClassThen isQuote
    (fun r2 => (dropL ".format(" r2).map (fun _ => 8)) r1
  pure (n0 + 1 + n, ())


/-- `\{([^}]+)\}`: an f-string placeholder; payload is the capture. -/
def braceVarM (s : Str) : Option (Nat × Str) := do
  let r ← dropC braceL s
  let (v, r2) ← run1 (fun c => c ≠ braceR) r
  let _ ← dropC braceR r2
  pure (1 + v.length + 1, v)

/-- `f["\']([^"\']*)["\']`: an f-string inside the parenthesis group;
payload is the capture (closing quote need not match the opening one,
exactly as in the source pattern). -/
def parenFstrM (s : Str) : Option (Nat × Str) := do
  let r ← dropC 'f' s
  let r1 ← dropP isQuote r
  let v := (runOf (fun c => !isQuote c) r1).1
  let _ ← dropP isQuote (r1.drop v.length)
  pure (2 + v.length + 1, v)

/-- Python `str.strip()` (ASCII whitespace model). -/
def pyStrip (v : Str) : Str :=
  ((v.dropWhile isPySpace).reverse.dropWhile isPySpace).reverse

/-- `re.match(r'^[a-zA-Z_][a-zA-Z0-9_]*$', v)` as a Boolean. -/
def isPyIdent (v : Str) : Bool :=
  match v with
  | [] => false
  | c :: t => (c.isAlpha || c = '_') && t.all isWordChar

/-- `', '.join(xs)`. -/
def joinComma : List Str → Str
  | [] => []
  | [x] => x
  | x :: y :: t => x ++ lit ", " ++ joinComma (y :: t)

/-- The indicator text recorded for a dynamic f-string system prompt. -/
def fstringIndicator (vars : List Str) : Str :=
  lit "f-string in system_prompt with variables: " ++ joinComma vars

/-- Valid placeholder identifiers of one extracted f-string literal. -/
def realVariables (cap : Str) : List Str :=
  (((findAll (noB braceVarM) cap).map (fun r => r.val)).map pyStrip).filter isPyIdent

/-! ## File-level staticness fallback -/

/-- `f["\'].*?\{[^}]+\}.*?["\']` (DOTALL): lazy scan to the first
placeholder group, then to the first closing quote. -/
def fileFstrM (s : Str) : Option (Nat × Unit) := do
  let r ← dropC 'f' s
  let r1 ← dropP isQuote r
  let n ← lazyClassThen (fun c => c = braceL)
    (fun t =>
      let v := (t.takeWhile (fun c => c ≠ braceR)).length
      if v = 0 then none
      else if t.length ≤ v then none
      else (lazyClassThen isQuote (fun _ => some 0) (t.drop (v + 1))).map
        (fun m => v + 1 + m)) r1
  pure (2 + n, ())

/-- `\.format\(`. -/
def formatCallM (s : Str) : Option (Nat × Unit) :=
  (dropL ".format(" s).map (fun _ => (8, ()))

/-- `["\'].*?["\']\\s*\+\\s*[a-zA-Z_]`: the concatenation indicator as it
is actually written in the source — the doubled backslashes inside the
raw string make `\\s*` a literal backslash followed by `s*`. -/
def concatTail (s : Str) : Option Nat := do
  let r ← dropC '\\' s
  let s1 := (runOf (fun c => c = 's') r).1
  let r2 ← dropC '+' (r.drop s1.length)
  let r3 ← dropC '\\' r2
  let s2 := (runOf (fun c => c = 's') r3).1
  let _ ← dropP (fun c => c.isAlpha || c = '_') (r3.drop s2.length)
  pure (1 + s1.length + 1 + 1 + s2.length + 1)

/-- See `concatTail`. -/
def concatM (s : Str) : Option (Nat × Unit) := do
  let r ← dropP isQuote s
  let n ← lazyClassThen isQuote concatTail r
  pure (1 + n, ())

/-- `%\s*\(`. -/
def percentM (s : Str) : Option (Nat × Unit) := do
  let r ← dropC '%' s
  let sp := (runOf isPySpace r).1
  let _ ← dropC '(' (r.drop sp.length)
  pure (1 + sp.length + 1, ())

/-! ## Prompt finding (`_find_prompts`, regex fallback path) -/

/-- `(system_prompt|prompt|instruction|message)\s*=\s*f?"""(.*?)"""`
(DOTALL, IGNORECASE).  Payload: the group-2 capture. -/
def promptPyM (s : Str) : Option (Nat × Str) := do
  let (kw, r) ← altLitCI ["system_prompt", "prompt", "instruction", "message"] s
  let sp1 := (runOf isPySpace r).1
  let r2 ← dropC '=' (r.drop sp1.length)
  let sp2 := (runOf isPySpace r2).1
  let r3 := r2.drop sp2.length
  let (fN, r4) ←
    match dropP (fun c => ciEq c 'f') r3 with
    | some r4 => some ((1 : Nat), r4)
    | none => some ((0 : Nat), r3)
  let r5 ← dropLs ['"', '"', '"'] r4
  let m ← minUntil ['"', '"', '"'] r5
  pure (kw.length + sp1.length + 1 + sp2.length + fN + 3 + m, r5.take (m - 3))

/-- Is one of the TS prompt keywords a (case-insensitive) substring of
the word run `w`? -/
def hasPromptKw (w : Str) : Bool :=
  let wl := pyLower w
  pyIn (lit "prompt") wl || pyIn (lit "instruction") wl ||
  pyIn (lit "message") wl || pyIn (lit "system") wl

/-- `(?:const|let|var)\s+(\w*(?:prompt|instruction|message|system)\w*)\s*[=:]\s*<bt>([^<bt>]{200,})<bt>`
(DOTALL, IGNORECASE), `<bt>` the backtick.  Payload: the group-2 body. -/
def tsVarM (s : Str) : Option (Nat × Str) := do
  let (kw, r) ← altLitCI ["const", "let", "var"] s
  let (sp1, r1) ← run1 isPySpace r
  let (w, r2) := runOf isWordChar r1
  if hasPromptKw w then
    let sp2 := (runOf isPySpace r2).1
    let r3 ← dropP (fun c => c = '=' || c = ':') (r2.drop sp2.length)
    let sp3 := (runOf isPySpace r3).1
    let r4 ← dropC btick (r3.drop sp3.length)
    let (body, r5) := runOf (fun c => c ≠ btick) r4
    if body.length < 200 then none
    else do
      let _ ← dropC btick r5
      pure (kw.length + sp1.length + w.length + sp2.length + 1 + sp3.length +
        1 + body.length + 1, body)
  else none

/-- `(instruction|prompt|message|system)\s*:\s*<bt>([^<bt>]{200,})<bt>`
(DOTALL, IGNORECASE).  Payload: the group-2 body. -/
def tsPropM (s : Str) : Option (Nat × Str) := do
  let (kw, r) ← altLitCI ["instruction", "prompt", "message", "system"] s
  let sp1 := (runOf isPySpace r).1
  let r1 ← dropC ':' (r.drop sp1.length)
  let sp2 := (runOf isPySpace r1).1
  let r2 ← dropC btick (r1.drop sp2.length)
  let (body, r3) := runOf (fun c => c ≠ btick) r2
  if body.length < 200 then none
  else do
    let _ ← dropC btick r3
    pure (kw.length + sp1.length + 1 + sp2.length + 1 + body.length + 1, body)

/-- Case-insensitive `\bWORD\b` search (the word begins and ends with
word characters, so the assertions reduce to the neighbours not being
word characters). -/
def wbAux (w : Str) : Option Char → Str → Bool
  | _, [] => false
  | prev, c :: t =>
    (!(prev.map isWordChar).getD false && startsWithCI w (c :: t) &&
      bndRight ((c :: t).drop w.length)) ||
    wbAux w (some c) t

/-- See `wbAux`. -/
def wbSearchCI (w : String) (text : Str) : Bool :=
  wbAux (lit w) none text

/-- The instruction keywords of `_find_prompts`. -/
def hasInstructionKw (text : Str) : Bool :=
  wbSearchCI "you are" text || wbSearchCI "act as" text ||
  wbSearchCI "analyze" text || wbSearchCI "evaluate" text

/-- `BedrockDetector._find_prompts`, deterministic regex path.  The
AI-powered path delegates to `..utils.bedrock_helper` (an external
collaborator outside this subsystem); per the fallback contract any
failure there falls back silently to this pure regex analysis, which is
what is modelled.  The `file_path` argument is unused on this path. -/
def find_prompts (content : Str) (_file_path : Str) : List PromptInfo :=
  let mk := fun (r : MRes Str) =>
    let text := r.val
    if hasInstructionKw text && decide (text.length ≥ 200) then
      some { text := text, length := text.length,
             line := lineNum content r.start, start := r.start,
             endPos := r.start + r.len }
    else none
  ((findAll (noB promptPyM) content).filterMap mk) ++
  ((findAll (noB tsVarM) content).filterMap mk) ++
  ((findAll (noB tsPropM) content).filterMap mk)

/-! ## Prompt-complexity estimation -/

/-- Word/phrase positions for the complexity patterns: occurrences of the
literal with the requested boundary assertions, on already-lowercased
text. -/
def occWBAux (w : Str) (lb rb : Bool) :
    Option Char → Str → Nat → List Nat
  | _, [], _ => []
  | prev, c :: t, i =>
    let okL := !lb || !(prev.map isWordChar).getD false
    let okR := !rb || bndRight ((c :: t).drop w.length)
    if okL && startsWithL w (c :: t) && okR then
      i :: occWBAux w lb rb (some c) t (i + 1)
    else occWBAux w lb rb (some c) t (i + 1)

/-- See `occWBAux`. -/
def occWB (w : String) (lb rb : Bool) (text : Str) : List Nat :=
  occWBAux (lit w) lb rb none text 0

/-- No newline inside `[a, b)` (regex `.` without DOTALL). -/
def noNl (text : Str) (a b : Nat) : Bool :=
  ((text.drop a).take (b - a)).all (fun c => c ≠ '\n')

/-- One step of a `\b…\b.*…`-style chain. -/
structure WSpec where
  word : String
  lb : Bool
  rb : Bool

/-- Continue a `.*`-linked chain from offset `pos`. -/
def chainFrom (text : Str) : Nat → List WSpec → Bool
  | _, [] => true
  | pos, sp :: rest =>
    (occWB sp.word sp.lb sp.rb text).any fun j =>
      pos ≤ j && noNl text pos j &&
        chainFrom text (j + (lit sp.word).length) rest

/-- `re.search` of a chain of literals linked by `.*` (no DOTALL). -/
def chainSearch : List WSpec → Str → Bool
  | [], _ => true
  | sp :: rest, text =>
    (occWB sp.word sp.lb sp.rb text).any fun i =>
      chainFrom text (i + (lit sp.word).length) rest

/-- `\bWORD\b` on lowered text. -/
def cw (w : String) : Str → Bool := chainSearch [⟨w, true, true⟩]

/-- The complexity indicator table of `_estimate_prompt_complexity`
(level, patterns), in source order. -/
def COMPLEXITY_TABLE : List (Nat × List (Str → Bool)) :=
  [(1, [cw "summarize", cw "list", cw "extract", cw "brief", cw "concise"]),
   (2, [cw "explain", cw "describe", cw "outline"]),
   (3, [cw "analyze", cw "compare", cw "assess", cw "evaluate"]),
   (4, [chainSearch [⟨"detailed", true, true⟩, ⟨"analysis", true, true⟩],
        cw "multiple perspectives", cw "comprehensive", cw "systematically",
        cw "reasoning", cw "think step by step"]),
   (5, [cw "extremely detailed", cw "research-level", cw "in great detail",
        chainSearch [⟨"carefully", true, false⟩, ⟨"evaluate", false, false⟩,
                     ⟨"multiple", false, true⟩],
        cw "consider edge cases"])]

/-- Matched level scores of a prompt (the inner double loop). -/
def levelScores (prompt_text : Str) : List Nat :=
  let tl := pyLower prompt_text
  COMPLEXITY_TABLE.flatMap fun p => (p.2.filter (fun f => f tl)).map fun _ => p.1

/-- `BedrockDetector._estimate_prompt_complexity`: 1–5 score, defaulting
to 2 (moderate) when no indicator matches; otherwise the highest matched
level. -/
def estimate_prompt_complexity (prompt_text : Str) : Nat :=
  let scores := levelScores prompt_text
  if scores.isEmpty then 2 else scores.foldl max 0

/-! ## `_find_matching_paren` (the balanced-parenthesis scanner) -/

/-- The inner string-skipping loop of `_find_matching_paren`, phrased as
the number of steps taken from `pos`: advance until the active quote `q`
reappears not preceded by a backslash.  `pos + skipStringD c q pos` is
the position of the closing quote, or `≥` the length when the string
never closes (Python leaves `pos` at the length in that case). -/
def skipStringDF (c : Str) (q : Char) : Nat → Nat → Nat
  | 0, _ => 0
  | fuel + 1, pos =>
    match c.get? pos with
    | none => 0
    | some ch =>
      if ch = q ∧ c.get? (pos - 1) ≠ some '\\' then 0
      else 1 + skipStringDF c q fuel (pos + 1)

/-- See `skipStringDF`; one unit of fuel per position, so
`c.length + 1` is always adequate. -/
def skipStringD (c : Str) (q : Char) (pos : Nat) : Nat :=
  skipStringDF c q (c.length + 1) pos

/-- Absolute position form of `skipStringD`. -/
def skipString (c : Str) (q : Char) (pos : Nat) : Nat :=
  pos + skipStringD c q pos

/-- The outer scanning loop of `_find_matching_paren` (depth is the
current unclosed-parenthesis count, at least 1; fuel-driven, one unit
per loop iteration, each of which advances the position). -/
def fmpGoF (c : Str) : Nat → Nat → Nat → Int
  | 0, _, _ => -1
  | fuel + 1, pos, depth =>
    match c.get? pos with
    | none => -1
    | some ch =>
      if ch = '(' then fmpGoF c fuel (pos + 1) (depth + 1)
      else if ch = ')' then
        if depth = 1 then (pos : Int) else fmpGoF c fuel (pos + 1) (depth - 1)
      else if ch = '"' ∨ ch = '\'' then
        fmpGoF c fuel (pos + 1 + skipStringD c ch (pos + 1) + 1) depth
      else fmpGoF c fuel (pos + 1) depth

/-- See `fmpGoF`. -/
def fmpGo (c : Str) (pos : Nat) (depth : Nat) : Int :=
  fmpGoF c (c.length + 1) pos depth

/-- `BedrockDetector._find_matching_paren`: position of the matching
closing parenthesis for the opening parenthesis at `start_pos`, skipping
parentheses inside quoted strings; `-1` when absent.-/
def find_matching_paren (content : Str) (start_pos : Nat) : Int :=
  if start_pos ≥ content.length ∨ content.get? start_pos ≠ some '(' then -1
  else fmpGo content (start_pos + 1) 1

/-! ## Reference scanner for the spec contract of §4.5

A declarative single-pass restatement of the spec's words for the
balanced-parenthesis scanner — one linear scan over the characters after
the opening parenthesis, tracking the nesting depth and, inside a string
literal, the single active quote character, where a quote preceded by a
backslash does not close the literal.  Written structurally over the
character list (with the previous character threaded for the escape
test) so the refinement theorem can compare the imperative code against
it. -/

mutual

/-- Code mode: `i` is the absolute position of the head of `l`, `depth ≥
1` the open-parenthesis count.  Returns the absolute position of the
parenthesis that closes depth 1, if any. -/
def refScan : Str → Nat → Nat → Option Nat
  | [], _, _ => none
  | ch :: rest, i, depth =>
    if ch = '(' then refScan rest (i + 1) (depth + 1)
    else if ch = ')' then
      if depth = 1 then some i else refScan rest (i + 1) (depth - 1)
    else if ch = '"' ∨ ch = '\'' then refString rest (i + 1) depth ch ch
    else refScan rest (i + 1) depth

/-- String mode with active quote `q`; `prev` is the character at
position `i - 1` (initially the opening quote itself). -/
def refString : Str → Nat → Nat → Char → Char → Option Nat
  | [], _, _, _, _ => none
  | ch :: rest, i, depth, q, prev =>
    if ch = q ∧ prev ≠ '\\' then refScan rest (i + 1) depth
    else refString rest (i + 1) depth q ch

end

/-- The spec contract: given the position of an opening parenthesis,
the matching closing parenthesis under the string-skipping scan, or
`none`. -/
def matchParenRef (content : Str) (p : Nat) : Option Nat :=
  if content.get? p = some '(' then refScan (content.drop (p + 1)) (p + 1) 1
  else none

/-! ## Bedrock client detection -/

/-- Positions of a case-insensitive literal in `content`. -/
def occCIAux (w : Str) : Str → Nat → List Nat
  | [], _ => []
  | s@(_ :: t), i =>
    if startsWithCI w s then i :: occCIAux w t (i + 1)
    else occCIAux w t (i + 1)

/-- See `occCIAux`. -/
def occCI (w : String) (content : Str) : List Nat := occCIAux (lit w) content 0

/-- Case-insensitive substring test. -/
def pyInCI (w : String) (content : Str) : Bool := !(occCI w content).isEmpty

/-- `boto3\.client\(['\"]bedrock-runtime['\"]` (IGNORECASE). -/
def boto3ClientM (s : Str) : Option (Nat × Unit) := do
  let r ← dropCI "boto3.client(" s
  let r1 ← dropP isQuote r
  let r2 ← dropCI "bedrock-runtime" r1
  let _ ← dropP isQuote r2
  pure (13 + 1 + 15 + 1, ())

/-- `from\s+.*bedrock.*\s+import` (IGNORECASE, `.` excludes newlines,
`\s` includes them): an existence test via the optimal backtracking
splits — maximal whitespace after `from`, maximal whitespace before
`import`. -/
def hasFromBedrockImport (content : Str) : Bool :=
  (occCI "from" content).any fun p =>
    let wsEnd := p + 4 + ((content.drop (p + 4)).takeWhile isPySpace).length
    wsEnd > p + 4 &&
    (occCI "bedrock" content).any fun j =>
      wsEnd ≤ j && noNl content wsEnd j &&
      (occCI "import" content).any fun k =>
        j + 7 ≤ k &&
        let vlen := (((content.take k).drop (j + 7)).reverse.takeWhile isPySpace).length
        vlen ≥ 1 && noNl content (j + 7) (k - vlen)

/-- `from\s+strands\.models\s+import\s+BedrockModel` (IGNORECASE). -/
def strandsImportM (s : Str) : Option (Nat × Unit) := do
  let r ← dropCI "from" s
  let (w1, r1) ← run1 isPySpace r
  let r2 ← dropCI "strands.models" r1
  let (w2, r3) ← run1 isPySpace r2
  let r4 ← dropCI "import" r3
  let (w3, r5) ← run1 isPySpace r4
  let _ ← dropCI "BedrockModel" r5
  pure (4 + w1.length + 14 + w2.length + 6 + w3.length + 12, ())

/-- `BedrockModel\s*\(` (IGNORECASE). -/
def bedrockModelCallM (s : Str) : Option (Nat × Unit) := do
  let r ← dropCI "BedrockModel" s
  let sp := (runOf isPySpace r).1
  let _ ← dropC '(' (r.drop sp.length)
  pure (12 + sp.length + 1, ())

/-- `bedrock-runtime\.[a-z0-9-]+\.amazonaws\.com/openai` (IGNORECASE). -/
def bedrockOpenaiEndpointM (s : Str) : Option (Nat × Unit) := do
  let r ← dropCI "bedrock-runtime." s
  let (reg, r1) ← run1 (fun c => isAlnumCI c || c = '-') r
  let r2 ← dropC '.' r1
  let _ ← dropCI "amazonaws.com/openai" r2
  pure (16 + reg.length + 1 + 20, ())

/-- `BedrockDetector._has_bedrock_client`: any of the client-detection
patterns matches (all IGNORECASE). -/
def has_bedrock_client (content : Str) : Bool :=
  hasMatch boto3ClientM content ||
  hasFromBedrockImport content ||
  pyInCI "BedrockRuntime" content ||
  pyInCI "@aws-sdk/client-bedrock" content ||
  hasMatch strandsImportM content ||
  hasMatch bedrockModelCallM content ||
  hasMatch bedrockOpenaiEndpointM content

/-- Positions of characters satisfying `p`. -/
def occPAux (p : Char → Bool) : Str → Nat → List Nat
  | [], _ => []
  | c :: t, i => if p c then i :: occPAux p t (i + 1) else occPAux p t (i + 1)

/-- See `occPAux`. -/
def occP (p : Char → Bool) (content : Str) : List Nat := occPAux p content 0

/-- `base_url\s*=\s*["\'].*bedrock-runtime.*["\']` (IGNORECASE, no
DOTALL): existence test. -/
def hasBaseUrlBedrock (content : Str) : Bool :=
  (occCI "base_url" content).any fun p =>
    let sp1 := ((content.drop (p + 8)).takeWhile isPySpace).length
    (content.get? (p + 8 + sp1) = some '=') &&
    (let sp2 := ((content.drop (p + 8 + sp1 + 1)).takeWhile isPySpace).length
     let qpos := p + 8 + sp1 + 1 + sp2
     (content.get? qpos).elim false isQuote &&
     (occCI "bedrock-runtime" content).any fun j =>
       qpos + 1 ≤ j && noNl content (qpos + 1) j &&
       (occP isQuote content).any fun k =>
         j + 15 ≤ k && noNl content (j + 15) k)

/-- `BEDROCK.*endpoint` (IGNORECASE, no DOTALL): existence test. -/
def hasBedrockEndpointText (content : Str) : Bool :=
  (occCI "BEDROCK" content).any fun p =>
    (occCI "endpoint" content).any fun k => p + 7 ≤ k && noNl content (p + 7) k

/-- `BedrockDetector._is_bedrock_openai_client`. -/
def is_bedrock_openai_client (content : Str) : Bool :=
  hasBaseUrlBedrock content ||
  hasMatch bedrockOpenaiEndpointM content ||
  hasBedrockEndpointText content

/-! ## Staticness analyses -/

/-- `str(n)` for the counts inside the file-level indicator texts. -/
def natStr (n : Nat) : Str := (toString n).toList

/-- `BedrockDetector._analyze_prompt_staticness_file_level`: coarse
file-level dynamic-content indicators, used when no `system_prompt=`
assignment is found. -/
def analyze_prompt_staticness_file_level (content : Str) : StaticnessResult :=
  let nf := (findAll (noB fileFstrM) content).length
  let nfmt := (findAll (noB formatCallM) content).length
  let ncat := (findAll (noB concatM) content).length
  let npct := (findAll (noB percentM) content).length
  let inds : List Str :=
    (if nf > 0 then [lit "f-string variables (" ++ natStr nf ++ lit " found)"] else []) ++
    (if nfmt > 0 then [lit ".format() calls (" ++ natStr nfmt ++ lit " found)"] else []) ++
    (if ncat > 0 then [lit "string concatenation (" ++ natStr ncat ++ lit " found)"] else []) ++
    (if npct > 0 then [lit "% formatting (" ++ natStr npct ++ lit " found)"] else [])
  { is_static := inds.isEmpty,
    confidence := if inds.isEmpty then lit "high"
                  else if inds.length ≤ 2 then lit "medium"
                  else lit "high",
    indicators := if inds.isEmpty then [lit "No dynamic prompt indicators found"] else inds,
    system_prompts_found := 0,
    dynamic_variables := [] }

/-- `BedrockDetector._analyze_system_prompt_staticness`: extract
`system_prompt=` assignments (four f-string literal shapes plus the
parenthesis-concatenation shape), collect placeholder variables, and
classify.  Falls back to the file-level analysis when no assignment is
found. -/
def analyze_system_prompt_staticness (content : Str) : StaticnessResult :=
  let caps : List Str :=
    ((findAll (noB (staticTripleM '"')) content) ++
     (findAll (noB (staticTripleM '\'')) content) ++
     (findAll (noB (staticSingleM '"')) content) ++
     (findAll (noB (staticSingleM '\'')) content)).map (fun r => r.val)
  let st1 : Nat × List Str × List Str :=
    caps.foldl (fun acc cap =>
      match acc with
      | (found, inds, dyn) =>
        let real := realVariables cap
        (found + 1,
         if real.isEmpty then inds else inds ++ [fstringIndicator real],
         dyn ++ real)) (0, [], [])
  let parenCaps := (findAll (noB sysParenM) content).map (fun r => r.val)
  let st2 : Nat × List Str × List Str :=
    parenCaps.foldl (fun acc cap =>
      match acc with
      | (found, inds, dyn) =>
        let fstrs := (findAll (noB parenFstrM) cap).map (fun r => r.val)
        let dyn2 := fstrs.foldl (fun d f =>
          ((findAll (noB braceVarM) f).map (fun r => r.val)).foldl (fun d2 v =>
            let vc := pyStrip v
            if isPyIdent vc && !d2.contains vc then d2 ++ [vc] else d2) d) dyn
        let inds2 := if !dyn2.isEmpty && inds.isEmpty
          then inds ++ [fstringIndicator dyn2] else inds
        (found + 1, inds2, dyn2)) st1
  let inds3 := if hasMatch sysFormatM content
    then st2.2.1 ++ [lit "system_prompt uses .format()"] else st2.2.1
  if st2.1 = 0 then analyze_prompt_staticness_file_level content
  else
    { is_static := inds3.isEmpty,
      confidence := if inds3.isEmpty then lit "high"
                    else if !st2.2.2.isEmpty then lit "high"
                    else lit "medium",
      indicators := if inds3.isEmpty
        then [lit "No dynamic variables in system_prompt"] else inds3,
      system_prompts_found := st2.1,
      dynamic_variables := st2.2.2 }

/-- `BedrockDetector._analyze_prompt_staticness` delegates to the
system-prompt-specific analysis. -/
def analyze_prompt_staticness (content : Str) : StaticnessResult :=
  analyze_system_prompt_staticness content

/-! ## Spec-modelled collaborators -/

/-- Modelled from the spec: `BedrockDetector._is_likely_false_positive`
is called by `_detect_models` but its definition lives outside the
provided sources (the `BaseDetector` module).  Per §4.2 a match is
discarded when it sits inside a comment, a validation/error message, or
a docstring context, determined by inspecting a bounded window of
surrounding text; the exact heuristic is declared implementer freedom.
This model inspects the 50 characters before the match plus the current
line's prefix for a comment marker, docstring delimiters, or
human-readable-message markers. -/
def is_likely_false_positive (content : Str) (start : Nat) (_endPos : Nat) : Bool :=
  let pre := content.take start
  let window := pre.drop (start - 50)
  let linePre := ((pre.reverse.takeWhile (fun c => c ≠ '\n'))).reverse
  pyIn (lit "#") linePre ||
  pyIn (lit "\"\"\"") window || pyIn (lit "'''") window ||
  pyIn (lit "error") (pyLower window) ||
  pyIn (lit "invalid") (pyLower window) ||
  pyIn (lit "must be") (pyLower window)

/-- Modelled from the spec: the external file-link helper
(`..utils.file_links.create_file_link`, outside this subsystem) is a
pure post-processing collaborator mapping `(file, line)` to a clickable
URI. -/
def create_file_link (file : Str) (line : Option Nat) : Str :=
  lit "file://" ++ file ++ lit "#L" ++
    (match line with | some n => natStr n | none => lit "None")

/-! ## Detectors -/

/-- `BedrockDetector._assess_streaming`, reduced to the discriminating
status of the returned assessment payload (the rest is advice text). -/
def assess_streaming_status (streaming : Bool) (file_path content : Str) : Str :=
  let is_lambda :=
    pyIn (lit "lambda") (pyLower file_path) ||
    pyIn (lit "handler") (pyLower file_path) ||
    pyIn (lit "lambda_handler") content ||
    pyIn (lit "def lambda_handler") content
  if streaming && is_lambda then lit "streaming_lambda_risk"
  else if streaming then lit "streaming_enabled"
  else lit "synchronous_mode"

/-- `BedrockDetector._detect_strands_bedrock_model`. -/
def detect_strands_bedrock_model (content file_path : Str) : List Finding :=
  (findAll (noB strandsM) content).filterMap fun r =>
    let params := r.val
    match (searchM modelIdParamM params).map (fun x => x.2) with
    | none => none
    | some mid =>
      let streaming := (searchM streamingParamM params).map (fun x => x.2)
      let mt := analyze_model_tier mid
      some { type := lit "strands_bedrock_model_config", file := file_path,
             line := some (some (lineNum content r.start)),
             model_id := some mid, model_tier := some mt.tier,
             service := some (lit "bedrock"),
             streaming := streaming,
             streaming_status := streaming.map
               (fun b => assess_streaming_status b file_path content),
             model_family := some mt.model_family,
             tier_name := some mt.tier_name }

/-- The `bedrock_model_usage` finding built for one model-id match. -/
def modelFinding (content file_path : Str) (r : MRes Unit) : Finding :=
  let model_id := (content.drop r.start).take r.len
  let parsed := parse_model_id model_id
  let rp := parsed.region_prefix
  { type := lit "bedrock_model_usage", file := file_path,
    line := some (some (lineNum content r.start)),
    model_id := some model_id, service := some (lit "bedrock"),
    parsed := some parsed,
    is_cross_region := some rp.isSome,
    cross_region_type :=
      if rp = some (lit "global") then some (lit "global")
      else if rp = some (lit "us") || rp = some (lit "eu") ||
          rp = some (lit "apac") then some (lit "geography-specific")
      else none }

/-- `BedrockDetector._detect_models`: every model-id pattern match that
survives the false-positive suppression becomes a
`bedrock_model_usage` finding. -/
def detect_models (content file_path : Str) : List Finding :=
  (modelIdMatches content).filterMap fun r =>
    if is_likely_false_positive content r.start (r.start + r.len) then none
    else some (modelFinding content file_path r)

/-- `BedrockDetector._detect_api_calls`. -/
def detect_api_calls (content file_path : Str) : List Finding :=
  INVOKE_PATTERNS.flatMap fun cp =>
    (findAll (noB (invokeM cp.2)) content).map fun r =>
      let call_type := lit cp.1
      let is_streaming := pyIn (lit "stream") (pyLower call_type)
      let base : Finding :=
        { type := lit "bedrock_api_call", file := file_path,
          line := some (some (lineNum content r.start)),
          call_type := some call_type,
          pattern := some (if is_streaming then lit "streaming"
                           else lit "synchronous"),
          service := some (lit "bedrock") }
      if cp.1 = "chat_completions_create" then
        let ctx := (content.drop r.start).take 500
        { base with
          api_style := some (lit "openai_compatible"),
          pattern := some (if hasMatch streamTrueM ctx then lit "streaming"
                           else if is_streaming then lit "streaming"
                           else lit "synchronous"),
          bedrock_confirmed := some (is_bedrock_openai_client content) }
      else base

/-- `BedrockDetector._detect_token_patterns`. -/
def detect_token_patterns (content file_path : Str) : List Finding :=
  (findAll (noB maxTokensM) content).map fun r =>
    { type := lit "token_configuration", file := file_path,
      line := some (some (lineNum content r.start)),
      max_tokens := some r.val, service := some (lit "bedrock") }

/-- `BedrockDetector._detect_nova_explicit_caching_opportunity`. -/
def detect_nova_explicit_caching_opportunity (content file_path : Str) :
    List Finding :=
  match (findAll (noB novaM) content).head? with
  | none => []
  | some m0 =>
    let nova_model := (content.drop m0.start).take m0.len
    let nova_line := lineNum content m0.start
    if pyIn (lit "cachePoint") content || pyIn (lit "cache_control") content then
      [({ type := lit "nova_explicit_caching_enabled", file := file_path,
          line := some (some nova_line), model_id := some nova_model,
          service := some (lit "bedrock") } : Finding)]
    else
      (find_prompts content file_path).filterMap fun pi =>
        let est := pi.length / 4
        if est < 150 then none
        else some
          { type := lit "nova_explicit_caching_opportunity", file := file_path,
            line := some (some pi.line), model_id := some nova_model,
            estimated_static_tokens := some est,
            service := some (lit "bedrock") }

/-- The per-model branch of `_detect_caching_cross_region_antipattern`. -/
def crossRegionOf (file_path : Str) (pa : StaticnessResult) (mf : Finding) :
    List Finding :=
  let parsed := mf.parsed.getD default
  match parsed.region_prefix with
  | none => []
  | some rp =>
    let base : Finding :=
      { type := lit "caching_cross_region_antipattern", file := file_path,
        line := some (mf.line.getD none),
        model_id := some (mf.model_id.getD []),
        region_prefix := some rp, service := some (lit "bedrock"),
        parsed := some parsed, prompt_analysis := some pa }
    if rp = lit "global" then
      [({ base with
          profile_type := some (lit "global"),
          severity := some (if pa.is_static then lit "info" else lit "high") })]
    else if rp = lit "us" || rp = lit "eu" || rp = lit "apac" then
      [({ base with
          profile_type := some (lit "geography-specific"),
          severity := some (if pa.is_static then lit "info" else lit "medium") })]
    else []

/-- `BedrockDetector._detect_caching_cross_region_antipattern`: requires
a caching marker and a detected model with a region prefix; severity
high/medium for dynamic prompts on global/geography profiles, info for
static prompts. -/
def detect_caching_cross_region_antipattern (content file_path : Str) :
    List Finding :=
  let has_cp := pyIn (lit "cachePoint") content
  let has_cc := pyIn (lit "cache_control") content || pyIn (lit "cacheControl") content
  if !(has_cp || has_cc) then []
  else
    (detect_models content file_path).flatMap
      (crossRegionOf file_path (analyze_prompt_staticness content))

/-- `content.split('\n')`. -/
def splitNl (content : Str) : List Str := content.splitOn '\n'

/-- The line-search loop of `_detect_dynamic_system_prompts`: 1-based
index of the first line containing both `system_prompt` and `=`. -/
def firstLineWith (content : Str) : Option Nat :=
  ((splitNl content).findIdx?
    (fun l => pyIn (lit "system_prompt") l && pyIn (lit "=") l)).map (· + 1)

/-- Minimum of a nonempty list (Python `min`), 0 on empty. -/
def listMin : List Nat → Nat
  | [] => 0
  | x :: t => t.foldl min x

/-- Maximum of a nonempty list (Python `max`), 0 on empty. -/
def listMax : List Nat → Nat
  | [] => 0
  | x :: t => t.foldl max x

/-- `BedrockDetector._analyze_prompt_complexity_variation`: emits a
`mixed_complexity_prompts` routing opportunity when at least two prompts
are found whose estimated complexity range is `≥ 2` and the first
detected model is premium or ultra-premium. -/
def analyze_prompt_complexity_variation (content file_path : Str) :
    List Finding :=
  let ls := find_prompts content file_path
  if ls.length < 2 then []
  else
    match ls with
    | [] => []
    | p0 :: _ =>
      let cvals := ls.map (fun p => estimate_prompt_complexity p.text)
      let mn := listMin cvals
      let mx := listMax cvals
      if mx - mn ≥ 2 then
        match modelIdMatches content with
        | [] => []
        | m0 :: _ =>
          let model_id := (content.drop m0.start).take m0.len
          let ti := analyze_model_tier model_id
          if ti.tier = lit "premium" || ti.tier = lit "ultra-premium" then
            let parsed := parse_model_id model_id
            let famStr := (parsed.family).getD (lit "None")
            [({ type := lit "prompt_routing_opportunity",
                subtype := some (lit "mixed_complexity_prompts"),
                file := file_path, line := some (some p0.line),
                service := some (lit "bedrock"),
                current_model := some model_id,
                current_model_display := some
                  (match parsed.tier with
                   | some t => famStr ++ '-' :: t
                   | none => famStr),
                current_tier := some ti.tier_name,
                complexity_min := some mn, complexity_max := some mx,
                complexity_range := some (mx - mn),
                prompt_count := some ls.length } : Finding)]
          else []
      else []

/-- One grouped model entry of `_detect_prompt_routing`. -/
structure RouteModel where
  model_id : Str
  tier : Str
  tier_name : Str
  family : Str
  line : Option Nat
deriving DecidableEq, Repr

/-- Keep the first occurrence of each element (Python
`dict`-insertion-order grouping keys / `set` size). -/
def dedupFirst (l : List Str) : List Str :=
  l.foldl (fun acc x => if acc.contains x then acc else acc ++ [x]) []

/-- The model-usage findings consumed by the routing detector. -/
def routingModelFindings (existing : List Finding) : List Finding :=
  existing.filter (fun f => f.type = lit "bedrock_model_usage")

/-- Family of a model finding (`finding.get('parsed', {}).get('family')`). -/
def famOf (f : Finding) : Option Str := (f.parsed.getD default).family

/-- The grouped entry built for one model finding. -/
def routeEntry (f : Finding) : RouteModel :=
  let t := analyze_model_tier (f.model_id.getD [])
  { model_id := f.model_id.getD [], tier := t.tier, tier_name := t.tier_name,
    family := t.model_family, line := f.line.getD none }

/-- Insertion-ordered family keys of `models_by_family`. -/
def familiesOrder (mfs : List Finding) : List Str :=
  dedupFirst (mfs.filterMap famOf)

/-- `models_by_family[fam]`, in finding order. -/
def familyModels (fam : Str) (mfs : List Finding) : List RouteModel :=
  (mfs.filter (fun f => famOf f = some fam)).map routeEntry

/-- The premium/ultra-premium models tracked by the routing detector. -/
def premiumModels (mfs : List Finding) : List RouteModel :=
  (mfs.map routeEntry).filter
    (fun m => m.tier = lit "premium" || m.tier = lit "ultra-premium")

/-- Opportunity 1: several distinct model ids within one family. -/
def routingOpp1 (file_path : Str) (mfs : List Finding) : List Finding :=
  (familiesOrder mfs).flatMap fun fam =>
    match familyModels fam mfs with
    | [] => []
    | m0 :: rest =>
      let models := m0 :: rest
      if (dedupFirst (models.map (fun m => m.model_id))).length > 1 then
        [({ type := lit "prompt_routing_opportunity",
            subtype := some (lit "multiple_models_same_family"),
            file := file_path, line := some m0.line,
            service := some (lit "bedrock"), model_family := some fam,
            models_detected := some (models.map (fun m => m.model_id)),
            tiers_detected := some (models.map (fun m => m.tier_name)) } :
          Finding)]
      else []

/-- Opportunity 3: a premium-tier model with mixed-complexity prompts;
the loop breaks after the first emitted finding (at most one per file).
The prompt scan and complexity estimate do not depend on the loop
variable, so the condition is re-evaluated identically per model. -/
def routingOpp3 (content file_path : Str) : List RouteModel → List Finding
  | [] => []
  | m :: rest =>
    let ls := find_prompts content file_path
    if ls.length ≥ 2 then
      match ls with
      | [] => routingOpp3 content file_path rest
      | _ :: _ =>
        let cvals := ls.map (fun p => estimate_prompt_complexity p.text)
        let mn := listMin cvals
        let mx := listMax cvals
        if mx - mn ≥ 2 then
          [({ type := lit "prompt_routing_opportunity",
              subtype := some (lit "premium_tier_with_mixed_complexity"),
              file := file_path, line := some m.line,
              service := some (lit "bedrock"),
              current_model := some m.model_id,
              current_tier := some m.tier_name, tier_level := some m.tier,
              complexity_min := some mn, complexity_max := some mx,
              complexity_range := some (mx - mn) } : Finding)]
        else routingOpp3 content file_path rest
    else routingOpp3 content file_path rest

/-- `BedrockDetector._detect_prompt_routing`: positive feedback when a
prompt-router ARN is present (and no further suggestions); otherwise the
three routing opportunities computed from the already-collected
model-usage findings. -/
def detect_prompt_routing (content file_path : Str)
    (existing : List Finding) : List Finding :=
  let router := findAll (noB routerArnM) content
  if !router.isEmpty then
    router.map fun r =>
      { type := lit "prompt_routing_detected", file := file_path,
        line := some (some (lineNum content r.start)),
        router_arn := some ((content.drop r.start).take r.len),
        service := some (lit "bedrock") }
  else
    let mfs := routingModelFindings existing
    if mfs.isEmpty then []
    else
      let o1 := routingOpp1 file_path mfs
      let o2 := analyze_prompt_complexity_variation content file_path
      let o3 :=
        if !(premiumModels mfs).isEmpty && (familiesOrder mfs).isEmpty then
          routingOpp3 content file_path (premiumModels mfs)
        else []
      o1 ++ o2 ++ o3

/-- `_get_service_tier_info(...)["category"]`. -/
def service_tier_category (tv : Str) : Str :=
  if tv = lit "reserved" then lit "ultra-premium"
  else if tv = lit "priority" then lit "premium"
  else if tv = lit "default" then lit "standard"
  else if tv = lit "standard" then lit "standard"
  else if tv = lit "flex" then lit "cost-optimized"
  else lit "unknown"

/-- `["\']service_tier["\']\s*:\s*["\'](\w+)["\']` (IGNORECASE). -/
def svcTierJsonM (s : Str) : Option (Nat × Str) := do
  let r ← dropP isQuote s
  let r1 ← dropCI "service_tier" r
  let r2 ← dropP isQuote r1
  let sp1 := (runOf isPySpace r2).1
  let r3 ← dropC ':' (r2.drop sp1.length)
  let sp2 := (runOf isPySpace r3).1
  let r4 ← dropP isQuote (r3.drop sp2.length)
  let (w, r5) ← run1 isWordChar r4
  let _ ← dropP isQuote r5
  pure (1 + 12 + 1 + sp1.length + 1 + sp2.length + 1 + w.length + 1, w)

/-- `service_tier\s*=\s*["\'](\w+)["\']` (IGNORECASE). -/
def svcTierEqM (s : Str) : Option (Nat × Str) := do
  let r ← dropCI "service_tier" s
  let sp1 := (runOf isPySpace r).1
  let r1 ← dropC '=' (r.drop sp1.length)
  let sp2 := (runOf isPySpace r1).1
  let r2 ← dropP isQuote (r1.drop sp2.length)
  let (w, r3) ← run1 isWordChar r2
  let _ ← dropP isQuote r3
  pure (12 + sp1.length + 1 + sp2.length + 1 + w.length + 1, w)

/-- `serviceTier\s*:\s*["\'](\w+)["\']` (IGNORECASE). -/
def svcTierCamelM (s : Str) : Option (Nat × Str) := do
  let r ← dropCI "serviceTier" s
  let sp1 := (runOf isPySpace r).1
  let r1 ← dropC ':' (r.drop sp1.length)
  let sp2 := (runOf isPySpace r1).1
  let r2 ← dropP isQuote (r1.drop sp2.length)
  let (w, r3) ← run1 isWordChar r2
  let _ ← dropP isQuote r3
  pure (11 + sp1.length + 1 + sp2.length + 1 + w.length + 1, w)

/-- The three service-tier patterns, in source order. -/
def SVC_TIER_MATCHERS : List (Str → Option (Nat × Str)) :=
  [svcTierJsonM, svcTierEqM, svcTierCamelM]

/-- Does the call context configure a service tier? -/
def hasServiceTier (ctx : Str) : Bool :=
  SVC_TIER_MATCHERS.any (fun m => hasMatch m ctx)

/-- `BedrockDetector._detect_service_tier`: reports configured
`service_tier` values and, for each API call whose argument scope (found
via `_find_matching_paren`) lacks one, a missing-service-tier
opportunity. -/
def detect_service_tier (content file_path : Str) : List Finding :=
  let explicit := SVC_TIER_MATCHERS.flatMap fun m =>
    (findAll (noB m) content).map fun r =>
      let tv := pyLower r.val
      { type := lit "bedrock_service_tier", file := file_path,
        line := some (some (lineNum content r.start)),
        service_tier := some tv,
        tier_category := some (service_tier_category tv),
        service := some (lit "bedrock") }
  let missing := INVOKE_PATTERNS.flatMap fun cp =>
    (findAll (noB (invokeM cp.2)) content).filterMap fun r =>
      let call_end := find_matching_paren content (r.start + r.len - 1)
      let ctx :=
        if call_end = -1 then (content.drop r.start).take 300
        else (content.drop r.start).take (call_end.toNat + 1 - r.start)
      if hasServiceTier ctx then none
      else some
        { type := lit "bedrock_service_tier_missing", file := file_path,
          line := some (some (lineNum content r.start)),
          api_call := some (lit cp.1),
          service_tier := some (lit "default (implicit)"),
          service := some (lit "bedrock") }
  explicit ++ missing

/-- `BedrockDetector._detect_dynamic_system_prompts`. -/
def detect_dynamic_system_prompts (content file_path : Str) : List Finding :=
  let analysis := analyze_system_prompt_staticness content
  if analysis.system_prompts_found > 0 && !analysis.is_static then
    if analysis.dynamic_variables.isEmpty then []
    else
      [({ type := lit "dynamic_system_prompt", severity := some (lit "high"),
          file := file_path, line := some (firstLineWith content),
          service := some (lit "bedrock"),
          dynamic_variables := some analysis.dynamic_variables,
          system_prompts_found := some analysis.system_prompts_found } : Finding)]
  else []

/-- The post-pass of `analyze`: attach a clickable link to every finding
that carries a `line` key and a truthy file path. -/
def addFileLink (f : Finding) : Finding :=
  if f.line.isSome && !f.file.isEmpty then
    { f with file_link := some (create_file_link f.file (f.line.getD none)) }
  else f

/-- The client-detected finding. -/
def clientFinding (file_path : Str) : Finding :=
  { type := lit "bedrock_client_detected", file := file_path,
    service := some (lit "bedrock") }

/-- `BedrockDetector.analyze`: the aggregate scan — every
matcher/analyzer runs in sequence over the same content, their findings
are appended in order (the routing detector additionally receives the
findings collected so far), and file links are attached at the end. -/
def analyze (content file_path : Str) : List Finding :=
  let fs0 : List Finding :=
    if has_bedrock_client content then [clientFinding file_path] else []
  let fs1 := fs0 ++ detect_strands_bedrock_model content file_path
  let fs2 := fs1 ++ detect_models content file_path
  let fs3 := fs2 ++ detect_api_calls content file_path
  let fs4 := fs3 ++ detect_token_patterns content file_path
  let fs5 := fs4 ++ detect_nova_explicit_caching_opportunity content file_path
  let fs6 := fs5 ++ detect_caching_cross_region_antipattern content file_path
  let fs7 := fs6 ++ detect_dynamic_system_prompts content file_path
  let fs8 := fs7 ++ detect_prompt_routing content file_path fs7
  let fs9 := fs8 ++ detect_service_tier content file_path
  fs9.map addFileLink

/-! ## Provenance of line numbers

Every `line` value a finding can carry is `lineNum content pos + …` for
`pos` the start offset of a pattern match — except the
`dynamic_system_prompt` finding, which uses `firstLineWith`.  The list
below collects the start offsets of every pattern the pipeline derives
line numbers from. -/

/-- Start offsets of a position-independent matcher's matches. -/
def startsOf {α : Type} (m : Str → Option (Nat × α)) (c : Str) : List Nat :=
  (findAll (noB m) c).map (fun r => r.start)

/-- All match-start offsets that any finding's `line` field can be
derived from (the `dynamic_system_prompt` line search excepted). -/
def allSourceStarts (c : Str) : List Nat :=
  ((modelIdMatches c).map (fun r => r.start)) ++
  startsOf strandsM c ++
  (INVOKE_PATTERNS.flatMap fun cp => startsOf (invokeM cp.2) c) ++
  startsOf maxTokensM c ++
  startsOf novaM c ++
  ((find_prompts c []).map (fun p => p.start)) ++
  startsOf routerArnM c ++
  (SVC_TIER_MATCHERS.flatMap fun m => startsOf m c)

/-- Is `f`'s line value derived from a recorded match start? -/
def lineFromSource (c : Str) (f : Finding) : Bool :=
  (allSourceStarts c).any fun pos => f.line == some (some (lineNum c pos))

/-- Number of findings carrying a given routing-opportunity subtype. -/
def countSubtype (l : List Finding) (st : String) : Nat :=
  (l.filter (fun f => f.subtype = some (lit st))).length

/-- The line-provenance discipline a finding of the pipeline obeys: its
`line` key is absent, or it is the `dynamic_system_prompt` finding whose
line is the first-line search result, or the line is derived from a
recorded match start. -/
def lineOK (c : Str) (f : Finding) : Prop :=
  f.line = none ∨
  (f.type = lit "dynamic_system_prompt" ∧
    f.line = some (firstLineWith c)) ∨
  lineFromSource c f = true

/-! ## Concrete inputs used by the claim witnesses -/

/-- The file path used by all witnesses. -/
def wPath : Str := lit "demo.py"

/-- Filler text free of complexity-indicator keywords, long enough to
push the prompt literals over the 200-character minimum. -/
def fillerText : String :=
  "aaaa bbbb cccc dddd aaaa bbbb cccc dddd aaaa bbbb cccc dddd aaaa bbbb cccc dddd aaaa bbbb cccc dddd aaaa bbbb cccc dddd aaaa bbbb cccc dddd aaaa bbbb cccc dddd aaaa bbbb cccc dddd aaaa bbbb cccc dddd"

/-- A simple prompt: instruction keyword plus `summarize` (level 1). -/
def promptTxt1 : String := "you are a helper. summarize. " ++ fillerText

/-- A complex prompt: instruction keyword plus `comprehensive`
(level 4). -/
def promptTxt2 : String := "you are a helper. comprehensive. " ++ fillerText

/-- Content for the C3 counterexample: one premium Claude model (a
recognized family) plus two prompts of complexity 1 and 4, no router
ARN. -/
def cC3cex : Str :=
  lit ("model = \"anthropic.claude-3-sonnet-20240229-v1:0\"\nprompt = \"\"\"" ++
    promptTxt1 ++ "\"\"\"\nprompt = \"\"\"" ++ promptTxt2 ++ "\"\"\"\n")

/-- Content for the C3 witness: a premium-tier model whose parsed family
is `None` (provider outside the family-recognition list), plus the same
two prompts. -/
def cC3wit : Str :=
  lit ("model = \"stability.claude-sonnet-x\"\nprompt = \"\"\"" ++
    promptTxt1 ++ "\"\"\"\nprompt = \"\"\"" ++ promptTxt2 ++ "\"\"\"\n")

/-- The model-usage findings pipeline input for the C3 theorems. -/
def exC3cex : List Finding := detect_models cC3cex wPath

/-- See `exC3cex`. -/
def exC3wit : List Finding := detect_models cC3wit wPath

/-- Content for the C4 witness: caching marker plus a `us.`-prefixed
model. -/
def cC4wit : Str := lit "cachePoint us.anthropic.claude-3-7-sonnet-20250219-v1:0"

/-- The finding emitted by the cross-region detector on `cC4wit`. -/
def wC4f : Finding :=
  ((detect_caching_cross_region_antipattern cC4wit wPath).head?).getD default

/-- Content for the C8 counterexample and witness: the first line
containing both `system_prompt` and `=` (line 1, inside a plain string)
differs from the line of the f-string assignment match (line 2). -/
def cC8 : Str :=
  lit "x = \"system_prompt = old\"\nsystem_prompt=f\"Hi {user_name}\"\n"

/-- The single finding `analyze` emits on `cC8`. -/
def wC8f : Finding := ((analyze cC8 wPath).head?).getD default

/-- Content for the C1 witness: one plain model identifier. -/
def cC1wit : Str := lit "model = \"anthropic.claude-3-haiku-20240307-v1:0\"\n"

/-- The model-usage finding detected on `cC1wit`. -/
def wC1f : Finding := ((detect_models cC1wit wPath).head?).getD default

/-- Content for the C5 witness: parentheses with a quoted string
containing a parenthesis. -/
def cC5wit : Str := lit "(a'(b)'c)"

/-- Content for the C9 counterexample: no recognized provider token, but
a region prefix. -/
def cC9cex : Str := lit "us.x.y-z"

/-- Content for the C9 witness: no recognized provider token, no region
prefix. -/
def cC9wit : Str := lit "qwen.qwq-32b-preview-v1:0"

/-- A prompt with no complexity-indicator keyword (C10 witness). -/
def cC10wit : Str := lit "hello world, please respond."

/-! ## The structured content family of claim C7 -/

/-- Characters allowed in the abstract pre/post segments of the C7
f-string body: no quotes, braces, parentheses, backslashes, underscores
or whitespace-sensitive characters that could start another pattern. -/
def c7safe (c : Char) : Bool :=
  c.isAlpha || c.isDigit || c = ' ' || c = '.' || c = ','

/-- `system_prompt=f"<pre>{user_name}<post>"`. -/
def c7content (pre post : Str) : Str :=
  lit "system_prompt" ++
    ('=' :: 'f' :: '"' :: (pre ++ (braceL :: (lit "user_name" ++
      (braceR :: (post ++ ['"']))))))

/-- The f-string capture of the single `system_prompt` assignment in
`c7content`. -/
def c7capture (pre post : Str) : Str :=
  'f' :: '"' :: ((pre ++ (braceL :: (lit "user_name" ++
    (braceR :: post)))) ++ ['"'])

/-- Concrete instance of the C7 content family for the witness. -/
def c7pre : Str := lit "You are an assistant for "

/-- See `c7pre`. -/
def c7post : Str := lit ", be helpful."

/-! # Theorems -/

/-! ## General lemmas about the string utilities -/

theorem pyIn_append_right {t l2 : Str} (l1 : Str) (h : pyIn t l2 = true) :
    pyIn t (l1 ++ l2) = true := by
  induction l1 with
  | nil => simpa using h
  | cons c cs ih =>
    simp only [List.cons_append, pyIn, Bool.or_eq_true]
    exact Or.inr ih

theorem pyIn_drop {t x : Str} {k : Nat} (h : pyIn t (x.drop k) = true) :
    pyIn t x = true := by
  have := pyIn_append_right (x.take k) h
  rwa [List.take_append_drop] at this

theorem regionSplit_snd_drop (x : Str) : ∃ k, (regionSplit x).2 = x.drop k := by
  unfold regionSplit
  cases h : (REGION_TOKENS.map lit).find? (fun t => startsWithL t x) with
  | none => exact ⟨0, rfl⟩
  | some t => exact ⟨t.length, rfl⟩

theorem foldl_max_le {l : List Nat} {a b : Nat} (ha : a ≤ b)
    (h : ∀ x ∈ l, x ≤ b) : l.foldl max a ≤ b := by
  induction l generalizing a with
  | nil => simpa using ha
  | cons x xs ih =>
    simp only [List.foldl_cons]
    exact ih (max_le ha (h x (by simp))) (fun y hy => h y (by simp [hy]))

theorem le_foldl_max (l : List Nat) (a : Nat) : a ≤ l.foldl max a := by
  induction l generalizing a with
  | nil => simp
  | cons x xs ih =>
    simp only [List.foldl_cons]
    exact le_trans (le_max_left a x) (ih (max a x))

/-! ## Claim C2 -/

/-- Claim C2: the model-ID parser maps the spec's two reference inputs to
the stated structured fields — `us.anthropic.claude-3-7-sonnet-20250219-v1:0`
parses to provider `anthropic`, family `claude`, tier `sonnet`, version
`3.7`, region prefix `us`; `amazon.nova-pro-v1:0` parses to family
`nova`, tier `pro`, version `1.0`, no region prefix. -/
theorem claim_C2 :
    parse_model_id (lit "us.anthropic.claude-3-7-sonnet-20250219-v1:0") =
      { full_model_id := lit "us.anthropic.claude-3-7-sonnet-20250219-v1:0",
        provider := some (lit "anthropic"), family := some (lit "claude"),
        version := some (lit "3.7"), tier := some (lit "sonnet"),
        region_prefix := some (lit "us") } ∧
    parse_model_id (lit "amazon.nova-pro-v1:0") =
      { full_model_id := lit "amazon.nova-pro-v1:0",
        provider := some (lit "amazon"), family := some (lit "nova"),
        version := some (lit "1.0"), tier := some (lit "pro"),
        region_prefix := none } := by
  decide

/-! ## Claim C9 (corrected) -/

/-- Counterexample to claim C9 as stated: `us.x.y-z` contains none of the
six recognized provider tokens, yet `region_prefix` is `us`, not `None`
— the region prefix is stripped independently of provider
recognition. -/
theorem claim_C9_counterexample :
    pyIn (lit "anthropic") (pyLower cC9cex) = false ∧
    pyIn (lit "amazon") (pyLower cC9cex) = false ∧
    pyIn (lit "meta") (pyLower cC9cex) = false ∧
    pyIn (lit "mistral") (pyLower cC9cex) = false ∧
    pyIn (lit "cohere") (pyLower cC9cex) = false ∧
    pyIn (lit "ai21") (pyLower cC9cex) = false ∧
    ParsedModelId.region_prefix (parse_model_id cC9cex) = some (lit "us") := by
  decide

/-- Claim C9 (amended): `_parse_model_id` is total (it is a function and
never raises), and on any input containing (case-insensitively) none of
the recognized provider tokens the `family`, `tier` and `version` fields
all remain `None`; `region_prefix` is set independently from the leading
region token. -/
theorem claim_C9 (s : Str)
    (h1 : pyIn (lit "anthropic") (pyLower s) = false)
    (h2 : pyIn (lit "amazon") (pyLower s) = false)
    (h3 : pyIn (lit "meta") (pyLower s) = false)
    (h4 : pyIn (lit "mistral") (pyLower s) = false)
    (h5 : pyIn (lit "cohere") (pyLower s) = false)
    (h6 : pyIn (lit "ai21") (pyLower s) = false) :
    (parse_model_id s).family = none ∧ (parse_model_id s).tier = none ∧
      (parse_model_id s).version = none := by
  obtain ⟨k, hk⟩ := regionSplit_snd_drop (pyLower s)
  have g : ∀ t : Str, pyIn t (pyLower s) = false →
      pyIn t (regionSplit (pyLower s)).2 = false := by
    intro t ht
    rw [hk]
    cases hp : pyIn t ((pyLower s).drop k) with
    | false => rfl
    | true => rw [pyIn_drop hp] at ht; cases ht
  unfold parse_model_id
  simp only [g _ h1, g _ h2, g _ h3, g _ h4, g _ h5, g _ h6,
    Bool.false_or, if_false, Bool.false_eq_true]
  exact ⟨trivial, trivial, trivial⟩

/-- Witness for claim C9 at `qwen.qwq-32b-preview-v1:0`. -/
theorem claim_C9_witness :
    (parse_model_id cC9wit).family = none ∧ (parse_model_id cC9wit).tier = none ∧
      (parse_model_id cC9wit).version = none :=
  claim_C9 cC9wit (by decide) (by decide) (by decide) (by decide) (by decide)
    (by decide)

/-! ## Claim C10 -/

theorem levelScores_mem_bounds {t : Str} {x : Nat} (h : x ∈ levelScores t) :
    1 ≤ x ∧ x ≤ 5 := by
  unfold levelScores at h
  rw [List.mem_flatMap] at h
  obtain ⟨p, hp, hx⟩ := h
  rw [List.mem_map] at hx
  obtain ⟨_, _, rfl⟩ := hx
  simp only [COMPLEXITY_TABLE, List.mem_cons, List.not_mem_nil, or_false] at hp
  rcases hp with rfl | rfl | rfl | rfl | rfl <;> simp

/-- Claim C10: the prompt-complexity estimator always returns a score in
`[1, 5]`; when no keyword-category pattern matches it returns exactly 2;
consequently two keyword-free prompts always have complexity range 0,
which can never reach the `range ≥ 2` routing-opportunity threshold. -/
theorem claim_C10 :
    (∀ t, 1 ≤ estimate_prompt_complexity t ∧ estimate_prompt_complexity t ≤ 5) ∧
    (∀ t, levelScores t = [] → estimate_prompt_complexity t = 2) ∧
    (∀ t1 t2, levelScores t1 = [] → levelScores t2 = [] →
      listMax [estimate_prompt_complexity t1, estimate_prompt_complexity t2] -
        listMin [estimate_prompt_complexity t1, estimate_prompt_complexity t2]
          = 0 ∧
      ¬ (2 ≤ listMax [estimate_prompt_complexity t1,
              estimate_prompt_complexity t2] -
            listMin [estimate_prompt_complexity t1,
              estimate_prompt_complexity t2])) := by
  have hdef : ∀ t, levelScores t = [] → estimate_prompt_complexity t = 2 := by
    intro t ht
    unfold estimate_prompt_complexity
    simp [ht]
  have hmain : ∀ t, 1 ≤ estimate_prompt_complexity t ∧
      estimate_prompt_complexity t ≤ 5 := by
    intro t
    cases hs : levelScores t with
    | nil => rw [hdef t hs]; omega
    | cons x xs =>
      have he : estimate_prompt_complexity t = (x :: xs).foldl max 0 := by
        unfold estimate_prompt_complexity
        rw [hs]
        simp
      have hx : 1 ≤ x ∧ x ≤ 5 := levelScores_mem_bounds (by rw [hs]; simp)
      have hub : (x :: xs).foldl max 0 ≤ 5 := by
        refine foldl_max_le (by omega) ?_
        intro y hy
        have hy2 : y ∈ levelScores t := by rw [hs]; exact hy
        exact (levelScores_mem_bounds hy2).2
      have hlb : x ≤ (x :: xs).foldl max 0 := by
        simp only [List.foldl_cons]
        exact le_trans (le_max_right 0 x) (le_foldl_max xs (max 0 x))
      rw [he]
      omega
  refine ⟨hmain, hdef, ?_⟩
  intro t1 t2 h1 h2
  rw [hdef t1 h1, hdef t2 h2]
  simp [listMax, listMin]

/-! ## Claim C4 -/

theorem mem_detect_models {c p : Str} {f : Finding} (hf : f ∈ detect_models c p) :
    ∃ r ∈ modelIdMatches c,
      is_likely_false_positive c r.start (r.start + r.len) = false ∧
      f = modelFinding c p r := by
  unfold detect_models at hf
  rw [List.mem_filterMap] at hf
  obtain ⟨r, hr, hor⟩ := hf
  refine ⟨r, hr, ?_⟩
  by_cases hsup : is_likely_false_positive c r.start (r.start + r.len) = true
  · rw [if_pos hsup] at hor; cases hor
  · rw [if_neg hsup] at hor
    exact ⟨by simpa using hsup, (Option.some_inj.mp hor).symm⟩

theorem detect_models_model_id {c p : Str} {f : Finding}
    (hf : f ∈ detect_models c p) : ∃ v, f.model_id = some v := by
  obtain ⟨r, _, _, rfl⟩ := mem_detect_models hf
  exact ⟨_, rfl⟩

/-- Claim C4: the cross-region caching anti-pattern detector emits a
finding only when a caching marker is present and some detected model ID
carries a non-null region prefix, and the severity is exactly `high` for
a global prefix with dynamic prompts, `medium` for a `us`/`eu`/`apac`
prefix with dynamic prompts, and `info` whenever the staticness analysis
reports the prompts as static. -/
theorem claim_C4 (content file_path : Str) (f : Finding)
    (hf : f ∈ detect_caching_cross_region_antipattern content file_path) :
    (pyIn (lit "cachePoint") content || pyIn (lit "cache_control") content ||
      pyIn (lit "cacheControl") content) = true ∧
    f.region_prefix.isSome = true ∧
    ((detect_models content file_path).any fun mf =>
      mf.model_id == f.model_id &&
        ParsedModelId.region_prefix (mf.parsed.getD default) ==
          f.region_prefix) = true ∧
    ((f.region_prefix = some (lit "global") ∧
        f.profile_type = some (lit "global") ∧
        f.severity = some (if (analyze_prompt_staticness content).is_static
          then lit "info" else lit "high")) ∨
     ((f.region_prefix = some (lit "us") ∨ f.region_prefix = some (lit "eu") ∨
         f.region_prefix = some (lit "apac")) ∧
       f.profile_type = some (lit "geography-specific") ∧
       f.severity = some (if (analyze_prompt_staticness content).is_static
          then lit "info" else lit "medium"))) := by
  simp only [detect_caching_cross_region_antipattern] at hf
  by_cases hmk : (pyIn (lit "cachePoint") content ||
      (pyIn (lit "cache_control") content || pyIn (lit "cacheControl") content))
        = true
  · rw [hmk] at hf
    simp only [Bool.not_true, if_false, Bool.false_eq_true] at hf
    rw [List.mem_flatMap] at hf
    obtain ⟨mf, hmf, hin⟩ := hf
    obtain ⟨v, hv⟩ := detect_models_model_id hmf
    have hmk2 : (pyIn (lit "cachePoint") content ||
        pyIn (lit "cache_control") content ||
        pyIn (lit "cacheControl") content) = true := by
      rcases Bool.or_eq_true_iff.mp hmk with h | h
      · simp [h]
      · rcases Bool.or_eq_true_iff.mp h with h2 | h2 <;> simp [h2]
    refine ⟨hmk2, ?_⟩
    simp only [crossRegionOf] at hin
    cases hrp : ParsedModelId.region_prefix (mf.parsed.getD default) with
    | none => rw [hrp] at hin; cases hin
    | some rp =>
      rw [hrp] at hin
      simp only at hin
      by_cases hg : rp = lit "global"
      · rw [if_pos hg] at hin
        rcases List.mem_singleton.mp hin with rfl
        refine ⟨rfl, ?_, ?_⟩
        · rw [List.any_eq_true]
          refine ⟨mf, hmf, ?_⟩
          simp only [hrp, hv]
          rw [Bool.and_eq_true, beq_iff_eq, beq_iff_eq]
          exact ⟨rfl, by rw [hg]⟩
        · left
          exact ⟨by rw [hg], rfl, rfl⟩
      · rw [if_neg hg] at hin
        by_cases hgeo : (rp = lit "us" || rp = lit "eu" || rp = lit "apac") = true
        · rw [if_pos hgeo] at hin
          rcases List.mem_singleton.mp hin with rfl
          refine ⟨rfl, ?_, ?_⟩
          · rw [List.any_eq_true]
            refine ⟨mf, hmf, ?_⟩
            simp only [hrp, hv]
            rw [Bool.and_eq_true, beq_iff_eq, beq_iff_eq]
            exact ⟨rfl, rfl⟩
          · right
            refine ⟨?_, rfl, rfl⟩
            rcases Bool.or_eq_true_iff.mp hgeo with h | h
            · rcases Bool.or_eq_true_iff.mp h with h2 | h2
              · exact Or.inl (by rw [decide_eq_true_iff.mp h2])
              · exact Or.inr (Or.inl (by rw [decide_eq_true_iff.mp h2]))
            · exact Or.inr (Or.inr (by rw [decide_eq_true_iff.mp h]))
        · rw [if_neg (by simpa using hgeo)] at hin
          cases hin
  · have hmkf : (pyIn (lit "cachePoint") content ||
        (pyIn (lit "cache_control") content || pyIn (lit "cacheControl") content))
          = false := by
      simpa using hmk
    rw [hmkf] at hf
    simp only [Bool.not_false, if_true] at hf
    cases hf

/-- Witness for claim C4 at `cC4wit`: a `us.`-prefixed Claude model plus
a `cachePoint` marker; the prompts are static, so the severity is
`info`. -/
theorem claim_C4_witness :
    (pyIn (lit "cachePoint") cC4wit || pyIn (lit "cache_control") cC4wit ||
      pyIn (lit "cacheControl") cC4wit) = true ∧
    wC4f.region_prefix.isSome = true ∧
    ((detect_models cC4wit wPath).any fun mf =>
      mf.model_id == wC4f.model_id &&
        ParsedModelId.region_prefix (mf.parsed.getD default) ==
          wC4f.region_prefix) = true ∧
    ((wC4f.region_prefix = some (lit "global") ∧
        wC4f.profile_type = some (lit "global") ∧
        wC4f.severity = some (if (analyze_prompt_staticness cC4wit).is_static
          then lit "info" else lit "high")) ∨
     ((wC4f.region_prefix = some (lit "us") ∨ wC4f.region_prefix = some (lit "eu") ∨
         wC4f.region_prefix = some (lit "apac")) ∧
       wC4f.profile_type = some (lit "geography-specific") ∧
       wC4f.severity = some (if (analyze_prompt_staticness cC4wit).is_static
          then lit "info" else lit "medium"))) :=
  claim_C4 cC4wit wPath wC4f (by decide)

/-! ## Claim C3 (corrected) -/

theorem countSubtype_append (a b : List Finding) (st : String) :
    countSubtype (a ++ b) st = countSubtype a st + countSubtype b st := by
  simp [countSubtype, List.filter_append]

theorem countSubtype_eq_zero {l : List Finding} {st : String}
    (h : ∀ f ∈ l, ¬ f.subtype = some (lit st)) : countSubtype l st = 0 := by
  unfold countSubtype
  rw [List.filter_eq_nil_iff.mpr]
  · rfl
  · intro f hf
    simpa using h f hf

theorem routingOpp1_subtype {p : Str} {mfs : List Finding} {f : Finding}
    (hf : f ∈ routingOpp1 p mfs) :
    f.subtype = some (lit "multiple_models_same_family") := by
  unfold routingOpp1 at hf
  rw [List.mem_flatMap] at hf
  obtain ⟨fam, _, hin⟩ := hf
  cases hfm : familyModels fam mfs with
  | nil => rw [hfm] at hin; cases hin
  | cons m0 rest =>
    rw [hfm] at hin
    simp only at hin
    split at hin
    · rcases List.mem_singleton.mp hin with rfl
      rfl
    · cases hin

theorem complexity_variation_subtype {c p : Str} {f : Finding}
    (hf : f ∈ analyze_prompt_complexity_variation c p) :
    f.subtype = some (lit "mixed_complexity_prompts") := by
  simp only [analyze_prompt_complexity_variation] at hf
  by_cases hlen : (find_prompts c p).length < 2
  · rw [if_pos hlen] at hf
    cases hf
  · rw [if_neg hlen] at hf
    cases hls : find_prompts c p with
    | nil => rw [hls] at hf; cases hf
    | cons p0 rest =>
      rw [hls] at hf
      simp only at hf
      by_cases hrng : listMax (List.map (fun q => estimate_prompt_complexity
            q.text) (p0 :: rest)) -
          listMin (List.map (fun q => estimate_prompt_complexity q.text)
            (p0 :: rest)) ≥ 2
      · rw [if_pos hrng] at hf
        cases hmm : modelIdMatches c with
        | nil => rw [hmm] at hf; cases hf
        | cons m0 ms =>
          rw [hmm] at hf
          simp only at hf
          by_cases htier : ((analyze_model_tier ((c.drop m0.start).take m0.len)).tier
              = lit "premium" ∨
            (analyze_model_tier ((c.drop m0.start).take m0.len)).tier
              = lit "ultra-premium")
          · rw [if_pos (by simpa [Bool.or_eq_true_iff, decide_eq_true_iff] using htier)] at hf
            rcases List.mem_singleton.mp hf with rfl
            rfl
          · rw [if_neg (by simpa [Bool.or_eq_true_iff, decide_eq_true_iff] using htier)] at hf
            cases hf
      · rw [if_neg hrng] at hf
        cases hf

theorem routingOpp3_cons (c p : Str) (m : RouteModel)
    (rest : List RouteModel) :
    routingOpp3 c p (m :: rest) =
      if (find_prompts c p).length ≥ 2 ∧
          2 ≤ listMax ((find_prompts c p).map
              (fun q => estimate_prompt_complexity q.text)) -
            listMin ((find_prompts c p).map
              (fun q => estimate_prompt_complexity q.text)) then
        [({ type := lit "prompt_routing_opportunity",
            subtype := some (lit "premium_tier_with_mixed_complexity"),
            file := p, line := some m.line,
            service := some (lit "bedrock"),
            current_model := some m.model_id,
            current_tier := some m.tier_name, tier_level := some m.tier,
            complexity_min := some (listMin ((find_prompts c p).map
              (fun q => estimate_prompt_complexity q.text))),
            complexity_max := some (listMax ((find_prompts c p).map
              (fun q => estimate_prompt_complexity q.text))),
            complexity_range := some (listMax ((find_prompts c p).map
                (fun q => estimate_prompt_complexity q.text)) -
              listMin ((find_prompts c p).map
                (fun q => estimate_prompt_complexity q.text))) } : Finding)]
      else routingOpp3 c p rest := by
  by_cases hlen : (find_prompts c p).length ≥ 2
  · obtain ⟨q0, qs, hl⟩ : ∃ q0 qs, find_prompts c p = q0 :: qs := by
      cases hx : find_prompts c p with
      | nil => rw [hx] at hlen; simp at hlen
      | cons a b => exact ⟨a, b, rfl⟩
    by_cases hrng : 2 ≤ listMax ((find_prompts c p).map
          (fun q => estimate_prompt_complexity q.text)) -
        listMin ((find_prompts c p).map
          (fun q => estimate_prompt_complexity q.text))
    · rw [if_pos ⟨hlen, hrng⟩]
      simp only [routingOpp3]
      rw [hl] at hlen hrng ⊢
      rw [if_pos (by simpa using hlen)]
      simp only
      rw [if_pos (by simpa using hrng)]
    · rw [if_neg (by tauto)]
      simp only [routingOpp3]
      rw [hl] at hlen hrng ⊢
      rw [if_pos (by simpa using hlen)]
      simp only
      rw [if_neg (by simpa using hrng)]
  · rw [if_neg (by tauto)]
    simp only [routingOpp3]
    rw [if_neg (by simpa using hlen)]

theorem routingOpp3_subtype {c p : Str} {l : List RouteModel} {f : Finding}
    (hf : f ∈ routingOpp3 c p l) :
    f.subtype = some (lit "premium_tier_with_mixed_complexity") := by
  induction l with
  | nil => cases hf
  | cons m rest ih =>
    rw [routingOpp3_cons] at hf
    by_cases h : (find_prompts c p).length ≥ 2 ∧
        2 ≤ listMax ((find_prompts c p).map
            (fun q => estimate_prompt_complexity q.text)) -
          listMin ((find_prompts c p).map
            (fun q => estimate_prompt_complexity q.text))
    · rw [if_pos h] at hf
      rcases List.mem_singleton.mp hf with rfl
      rfl
    · rw [if_neg h] at hf
      exact ih hf

theorem routingOpp3_length (c p : Str) (l : List RouteModel) :
    (routingOpp3 c p l).length ≤ 1 := by
  induction l with
  | nil => simp [routingOpp3]
  | cons m rest ih =>
    rw [routingOpp3_cons]
    split
    · simp
    · exact ih

theorem routingOpp3_fires (c p : Str) (m : RouteModel) (rest : List RouteModel)
    (h5 : (find_prompts c p).length ≥ 2)
    (h6 : 2 ≤ listMax ((find_prompts c p).map
        (fun q => estimate_prompt_complexity q.text)) -
      listMin ((find_prompts c p).map
        (fun q => estimate_prompt_complexity q.text))) :
    (routingOpp3 c p (m :: rest)).length = 1 := by
  rw [routingOpp3_cons, if_pos ⟨h5, h6⟩]
  rfl

theorem router_detected_subtype {c p : Str} {f : Finding}
    (hf : f ∈ (findAll (noB routerArnM) c).map (fun r =>
      ({ type := lit "prompt_routing_detected", file := p,
         line := some (some (lineNum c r.start)),
         router_arn := some ((c.drop r.start).take r.len),
         service := some (lit "bedrock") } : Finding))) :
    f.subtype = none := by
  rw [List.mem_map] at hf
  obtain ⟨r2, _, rfl⟩ := hf
  rfl

/-- Counterexample to claim C3 as stated: on `cC3cex` every precondition
of the claim holds — no router ARN, exactly one distinct model id, that
model premium tier, two detected prompts with complexity range 3 — yet
no `premium_tier_with_mixed_complexity` finding is emitted (the code
only reaches that branch when the by-family grouping is empty, and a
premium Claude model has family `claude`). -/
theorem claim_C3_counterexample :
    (findAll (noB routerArnM) cC3cex).isEmpty = true ∧
    (dedupFirst ((routingModelFindings exC3cex).map
      (fun f => f.model_id.getD []))).length = 1 ∧
    (premiumModels (routingModelFindings exC3cex)).length = 1 ∧
    (find_prompts cC3cex wPath).length = 2 ∧
    listMax ((find_prompts cC3cex wPath).map
        (fun q => estimate_prompt_complexity q.text)) -
      listMin ((find_prompts cC3cex wPath).map
        (fun q => estimate_prompt_complexity q.text)) = 3 ∧
    countSubtype (detect_prompt_routing cC3cex wPath exC3cex)
      "premium_tier_with_mixed_complexity" = 0 := by
  set_option maxRecDepth 100000 in decide

/-- Claim C3 (amended): the `premium_tier_with_mixed_complexity` routing
finding is emitted at most once per file; and it is emitted exactly once
when the file has no prompt-router ARN, the model-usage findings are
nonempty with an empty by-family grouping (every premium model's parsed
family is `None` — providers outside the family-recognition list), at
least one model is premium/ultra-premium tier, and at least two prompts
are detected with complexity range at least 2.  (When the premium model
has a recognized family, the same situation is reported through the
`mixed_complexity_prompts` subtype instead.) -/
theorem claim_C3 :
    (∀ (content file_path : Str) (existing : List Finding),
      countSubtype (detect_prompt_routing content file_path existing)
        "premium_tier_with_mixed_complexity" ≤ 1) ∧
    (∀ (content file_path : Str) (existing : List Finding),
      findAll (noB routerArnM) content = [] →
      routingModelFindings existing ≠ [] →
      familiesOrder (routingModelFindings existing) = [] →
      premiumModels (routingModelFindings existing) ≠ [] →
      (find_prompts content file_path).length ≥ 2 →
      2 ≤ listMax ((find_prompts content file_path).map
          (fun q => estimate_prompt_complexity q.text)) -
        listMin ((find_prompts content file_path).map
          (fun q => estimate_prompt_complexity q.text)) →
      countSubtype (detect_prompt_routing content file_path existing)
        "premium_tier_with_mixed_complexity" = 1) := by
  constructor
  · intro c p ex
    simp only [detect_prompt_routing]
    cases hr : (findAll (noB routerArnM) c).isEmpty with
    | false =>
      rw [if_pos (by simp)]
      have h0 : countSubtype ((findAll (noB routerArnM) c).map (fun r =>
          ({ type := lit "prompt_routing_detected", file := p,
             line := some (some (lineNum c r.start)),
             router_arn := some ((c.drop r.start).take r.len),
             service := some (lit "bedrock") } : Finding)))
          "premium_tier_with_mixed_complexity" = 0 :=
        countSubtype_eq_zero (fun f hf => by
          rw [router_detected_subtype hf]; simp)
      omega
    | true =>
      rw [if_neg (by simp)]
      by_cases hm : (routingModelFindings ex).isEmpty = true
      · rw [if_pos hm]
        simp [countSubtype]
      · rw [if_neg hm]
        rw [countSubtype_append, countSubtype_append]
        have z1 : countSubtype (routingOpp1 p (routingModelFindings ex))
            "premium_tier_with_mixed_complexity" = 0 := by
          refine countSubtype_eq_zero ?_
          intro f hf
          rw [routingOpp1_subtype hf]
          decide
        have z2 : countSubtype (analyze_prompt_complexity_variation c p)
            "premium_tier_with_mixed_complexity" = 0 := by
          refine countSubtype_eq_zero ?_
          intro f hf
          rw [complexity_variation_subtype hf]
          decide
        have z3 : countSubtype
            (if !(premiumModels (routingModelFindings ex)).isEmpty &&
                (familiesOrder (routingModelFindings ex)).isEmpty then
              routingOpp3 c p (premiumModels (routingModelFindings ex))
            else []) "premium_tier_with_mixed_complexity" ≤ 1 := by
          split
          · calc countSubtype _ _ ≤ (routingOpp3 c p
                (premiumModels (routingModelFindings ex))).length :=
                  List.length_filter_le _ _
              _ ≤ 1 := routingOpp3_length c p _
          · simp [countSubtype]
        omega
  · intro c p ex h1 h2 h3 h4 h5 h6
    unfold detect_prompt_routing
    rw [h1]
    simp only [List.isEmpty_nil, Bool.not_true, if_false, Bool.false_eq_true]
    rw [if_neg (by simpa using h2)]
    rw [countSubtype_append, countSubtype_append]
    have z1 : countSubtype (routingOpp1 p (routingModelFindings ex))
        "premium_tier_with_mixed_complexity" = 0 := by
      unfold routingOpp1
      rw [h3]
      rfl
    have z2 : countSubtype (analyze_prompt_complexity_variation c p)
        "premium_tier_with_mixed_complexity" = 0 := by
      refine countSubtype_eq_zero ?_
      intro f hf
      rw [complexity_variation_subtype hf]
      decide
    have hcond : (!(premiumModels (routingModelFindings ex)).isEmpty &&
        (familiesOrder (routingModelFindings ex)).isEmpty) = true := by
      rw [h3]
      cases hpm : premiumModels (routingModelFindings ex) with
      | nil => exact absurd hpm h4
      | cons a b => simp
    rw [if_pos hcond]
    cases hpm : premiumModels (routingModelFindings ex) with
    | nil => exact absurd hpm h4
    | cons m rest =>
      have z3 : countSubtype (routingOpp3 c p (m :: rest))
          "premium_tier_with_mixed_complexity" = 1 := by
        have hall : ∀ f ∈ routingOpp3 c p (m :: rest),
            f.subtype = some (lit "premium_tier_with_mixed_complexity") :=
          fun f hf => routingOpp3_subtype hf
        have hlen := routingOpp3_fires c p m rest h5 h6
        unfold countSubtype
        rw [List.filter_eq_self.mpr]
        · exact hlen
        · intro f hf
          simp [hall f hf]
      omega

set_option maxRecDepth 100000 in
/-- Witness for claim C3 (amended) at `cC3wit`: a premium model with
unrecognized family plus two prompts of complexity 1 and 4 — exactly one
`premium_tier_with_mixed_complexity` finding. -/
theorem claim_C3_witness :
    countSubtype (detect_prompt_routing cC3wit wPath exC3wit)
      "premium_tier_with_mixed_complexity" = 1 :=
  claim_C3.2 cC3wit wPath exC3wit (by decide) (by decide) (by decide)
    (by decide) (by decide) (by decide)

/-- Witness for claim C10 at a keyword-free prompt. -/
theorem claim_C10_witness :
    estimate_prompt_complexity cC10wit = 2 ∧
    ¬ (2 ≤ listMax [estimate_prompt_complexity cC10wit,
          estimate_prompt_complexity cC10wit] -
        listMin [estimate_prompt_complexity cC10wit,
          estimate_prompt_complexity cC10wit]) :=
  ⟨claim_C10.2.1 cC10wit (by decide),
   (claim_C10.2.2 cC10wit cC10wit (by decide) (by decide)).2⟩

/-! ## Claim C7: staticness of the f-string system-prompt family -/

theorem findAllAux_cons {α : Type} (m : Str → Option (Nat × α)) (fuel : Nat)
    (prev : Option Char) (c : Char) (t : Str) (off : Nat) :
    findAllAux (noB m) (fuel + 1) prev (c :: t) off =
      match m (c :: t) with
      | some (n, a) =>
        if n = 0 then
          { start := off, len := n, val := a } ::
            findAllAux (noB m) fuel (some c) t (off + 1)
        else
          { start := off, len := n, val := a } ::
            findAllAux (noB m) fuel (((c :: t).take n).getLast?)
              ((c :: t).drop n) (off + n)
      | none => findAllAux (noB m) fuel (some c) t (off + 1) := rfl

theorem findAllAux_cons_none {α : Type} {m : Str → Option (Nat × α)}
    (fuel : Nat) (prev : Option Char) {c : Char} {t : Str} (off : Nat)
    (hm : m (c :: t) = none) :
    findAllAux (noB m) (fuel + 1) prev (c :: t) off =
      findAllAux (noB m) fuel (some c) t (off + 1) := by
  rw [findAllAux_cons, hm]

theorem findAllAux_cons_pos {α : Type} {m : Str → Option (Nat × α)}
    (fuel : Nat) (prev : Option Char) {c : Char} {t : Str} (off : Nat)
    {n : Nat} {a : α} (hm : m (c :: t) = some (n, a)) (hn : n ≠ 0) :
    findAllAux (noB m) (fuel + 1) prev (c :: t) off =
      { start := off, len := n, val := a } ::
        findAllAux (noB m) fuel (((c :: t).take n).getLast?)
          ((c :: t).drop n) (off + n) := by
  rw [findAllAux_cons, hm]
  exact if_neg hn

theorem findAllAux_cons_zero {α : Type} {m : Str → Option (Nat × α)}
    (fuel : Nat) (prev : Option Char) {c : Char} {t : Str} (off : Nat)
    {a : α} (hm : m (c :: t) = some (0, a)) :
    findAllAux (noB m) (fuel + 1) prev (c :: t) off =
      { start := off, len := 0, val := a } ::
        findAllAux (noB m) fuel (some c) t (off + 1) := by
  rw [findAllAux_cons, hm]
  rfl

theorem findAllAux_prev_fuel {α : Type} (m : Str → Option (Nat × α)) :
    ∀ (f1 f2 : Nat) (p1 p2 : Option Char) (s : Str) (off : Nat),
      s.length < f1 → s.length < f2 →
      findAllAux (noB m) f1 p1 s off = findAllAux (noB m) f2 p2 s off := by
  intro f1
  induction f1 with
  | zero => intro f2 p1 p2 s off h1 _; omega
  | succ f ih =>
    intro f2 p1 p2 s off h1 h2
    cases f2 with
    | zero => omega
    | succ g =>
      cases s with
      | nil => simp only [findAllAux]
      | cons c t =>
        simp only [List.length_cons] at h1 h2
        cases hm : m (c :: t) with
        | none =>
          rw [findAllAux_cons_none f p1 off hm,
            findAllAux_cons_none g p2 off hm]
          exact ih g (some c) (some c) t (off + 1) (by omega) (by omega)
        | some p =>
          obtain ⟨n, a⟩ := p
          by_cases hn : n = 0
          · subst hn
            rw [findAllAux_cons_zero f p1 off hm,
              findAllAux_cons_zero g p2 off hm]
            rw [ih g (some c) (some c) t (off + 1) (by omega) (by omega)]
          · rw [findAllAux_cons_pos f p1 off hm hn,
              findAllAux_cons_pos g p2 off hm hn]
            have hdl : ((c :: t).drop n).length = t.length + 1 - n := by
              rw [List.length_drop]; simp
            rw [ih g (((c :: t).take n).getLast?) (((c :: t).take n).getLast?)
              ((c :: t).drop n) (off + n) (by omega) (by omega)]

theorem findAllAux_nil_of_none {α : Type} (m : Str → Option (Nat × α)) :
    ∀ (fuel : Nat) (prev : Option Char) (s : Str) (off : Nat),
      (∀ i, m (s.drop i) = none) →
      findAllAux (noB m) fuel prev s off = [] := by
  intro fuel
  induction fuel with
  | zero => intro prev s off _; simp only [findAllAux]
  | succ f ih =>
    intro prev s off h
    cases s with
    | nil => simp only [findAllAux]
    | cons c t =>
      have h0 : m (c :: t) = none := by simpa using h 0
      rw [findAllAux_cons_none f prev off h0]
      exact ih (some c) t (off + 1) (fun i => by simpa using h (i + 1))

theorem findAll_nil_of_none {α : Type} (m : Str → Option (Nat × α)) (s : Str)
    (h : ∀ i, m (s.drop i) = none) : findAll (noB m) s = [] :=
  findAllAux_nil_of_none m (s.length + 1) none s 0 h

theorem findAllAux_seek {α : Type} (m : Str → Option (Nat × α)) :
    ∀ (s1 s2 : Str) (off fuel : Nat) (prev : Option Char),
      (∀ i, i < s1.length → m ((s1 ++ s2).drop i) = none) →
      (s1 ++ s2).length < fuel →
      findAllAux (noB m) fuel prev (s1 ++ s2) off =
        findAllAux (noB m) (s2.length + 1) none s2 (off + s1.length) := by
  intro s1
  induction s1 with
  | nil =>
    intro s2 off fuel prev _ hf
    simp only [List.nil_append, List.length_nil, Nat.add_zero]
    exact findAllAux_prev_fuel m fuel (s2.length + 1) prev none s2 off
      (by simpa using hf) (by omega)
  | cons c s1t ih =>
    intro s2 off fuel prev h hf
    cases fuel with
    | zero => exact absurd hf (by omega)
    | succ f =>
      have h0 : m (c :: (s1t ++ s2)) = none := by
        have hx := h 0 (by simp)
        simpa using hx
      simp only [List.cons_append, List.length_cons]
      rw [findAllAux_cons_none f prev off h0]
      have hA : ∀ i, i < s1t.length → m ((s1t ++ s2).drop i) = none := by
        intro i hi
        have hx := h (i + 1) (by simp only [List.length_cons]; omega)
        simpa using hx
      have hB : (s1t ++ s2).length < f := by
        simp only [List.cons_append, List.length_cons] at hf
        omega
      rw [ih s2 (off + 1) f (some c) hA hB]
      have harith : off + 1 + s1t.length = off + (s1t.length + 1) := by omega
      rw [harith]

theorem findAll_decomp_one {α : Type} (m : Str → Option (Nat × α))
    (s1 s2 : Str) (n : Nat) (a : α)
    (h1 : ∀ i, i < s1.length → m ((s1 ++ s2).drop i) = none)
    (h2 : m s2 = some (n, a)) (hn : 0 < n)
    (h3 : ∀ i, m ((s2.drop n).drop i) = none) :
    findAll (noB m) (s1 ++ s2) =
      [{ start := s1.length, len := n, val := a }] := by
  unfold findAll
  rw [findAllAux_seek m s1 s2 0 ((s1 ++ s2).length + 1) none h1 (by omega)]
  cases s2 with
  | nil =>
    have hx := h3 0
    simp only [List.drop_nil] at hx
    rw [h2] at hx
    cases hx
  | cons c t =>
    rw [findAllAux_cons_pos ((c :: t).length) none (0 + s1.length) h2
      (by omega)]
    rw [findAllAux_nil_of_none m ((c :: t).length)
      (((c :: t).take n).getLast?) ((c :: t).drop n) (0 + s1.length + n) h3]
    simp

theorem findAll_single_head {α : Type} (m : Str → Option (Nat × α)) (s : Str)
    (n : Nat) (a : α) (h2 : m s = some (n, a)) (hn : 0 < n)
    (h3 : ∀ i, m ((s.drop n).drop i) = none) :
    findAll (noB m) s = [{ start := 0, len := n, val := a }] := by
  have hx := findAll_decomp_one m [] s n a (by intro i hi; simp at hi) h2 hn h3
  simpa using hx

theorem searchM_none {α : Type} (m : Str → Option α) :
    ∀ (s : Str), (∀ i, m (s.drop i) = none) → searchM m s = none := by
  intro s
  induction s with
  | nil =>
    intro h
    simp only [searchM]
    simpa using h 0
  | cons c t ih =>
    intro h
    have h0 : m (c :: t) = none := by simpa using h 0
    simp only [searchM, h0]
    exact ih (fun i => by simpa using h (i + 1))

theorem startsWithL_append (t r : Str) : startsWithL t (t ++ r) = true := by
  unfold startsWithL
  rw [List.isPrefixOf_iff_prefix]
  exact List.prefix_append t r

theorem takeWhile_app_stop {p : Char → Bool} {l1 : Str} (d : Char) (l2 : Str)
    (h : l1.all p = true) (hd : p d = false) :
    (l1 ++ d :: l2).takeWhile p = l1 := by
  induction l1 with
  | nil => exact List.takeWhile_cons_of_neg (by simp [hd])
  | cons a t ih =>
    simp only [List.all_cons, Bool.and_eq_true] at h
    simp [List.takeWhile_cons_of_pos h.1, ih h.2]

theorem dropWhile_app_stop {p : Char → Bool} {l1 : Str} (d : Char) (l2 : Str)
    (h : l1.all p = true) (hd : p d = false) :
    (l1 ++ d :: l2).dropWhile p = d :: l2 := by
  induction l1 with
  | nil => exact List.dropWhile_cons_of_neg (by simp [hd])
  | cons a t ih =>
    simp only [List.all_cons, Bool.and_eq_true] at h
    simp [List.dropWhile_cons_of_pos h.1, ih h.2]

theorem takeWhile_app_all {p : Char → Bool} {l1 : Str} (l2 : Str)
    (h : l1.all p = true) :
    (l1 ++ l2).takeWhile p = l1 ++ l2.takeWhile p := by
  induction l1 with
  | nil => rfl
  | cons a t ih =>
    simp only [List.all_cons, Bool.and_eq_true] at h
    simp [List.takeWhile_cons_of_pos h.1, ih h.2]

theorem dropWhile_app_all {p : Char → Bool} {l1 : Str} (l2 : Str)
    (h : l1.all p = true) :
    (l1 ++ l2).dropWhile p = l2.dropWhile p := by
  induction l1 with
  | nil => rfl
  | cons a t ih =>
    simp only [List.all_cons, Bool.and_eq_true] at h
    simp [List.dropWhile_cons_of_pos h.1, ih h.2]

theorem c7safe_ne {x : Char} (h : c7safe x = true) {y : Char}
    (hy : c7safe y = false) : x ≠ y := by
  intro he
  rw [he, hy] at h
  cases h

theorem all_ne_of_all_safe {l : Str} (h : l.all c7safe = true) {ch : Char}
    (hch : c7safe ch = false) : l.all (fun c => c ≠ ch) = true := by
  rw [List.all_eq_true] at h ⊢
  intro x hx
  simp only [decide_eq_true_eq]
  exact c7safe_ne (h x hx) hch

theorem all_nbeq_of_all_safe {l : Str} (h : l.all c7safe = true) {ch : Char}
    (hch : c7safe ch = false) :
    l.all (fun c => !decide (c = ch)) = true := by
  rw [List.all_eq_true] at h ⊢
  intro x hx
  have hne : x ≠ ch := c7safe_ne (h x hx) hch
  simp [hne]

theorem sysPromptEq_gen (X : Str) :
    sysPromptEq (lit "system_prompt" ++ ('=' :: 'f' :: '"' :: X)) =
      some (14, 'f' :: '"' :: X) := by
  have e1 : ∀ l : Str, List.takeWhile isPySpace ('=' :: l) = [] :=
    fun l => List.takeWhile_cons_of_neg (by decide)
  have e2 : ∀ l : Str, List.takeWhile isPySpace ('f' :: l) = [] :=
    fun l => List.takeWhile_cons_of_neg (by decide)
  simp [sysPromptEq, dropL, dropC, dropP, runOf,
    startsWithL_append, List.drop_left, e1, e2]

theorem c7content_form (pre post : Str) :
    c7content pre post =
      lit "system_prompt" ++ ('=' :: 'f' :: '"' ::
        ((pre ++ (braceL :: (lit "user_name" ++ (braceR :: post)))) ++ ['"'])) := by
  simp [c7content]

theorem staticTripleM_none (qc : Char) {s : Str} (h : sysPromptEq s = none) :
    staticTripleM qc s = none := by
  simp [staticTripleM, h]

theorem staticSingleM_none (qc : Char) {s : Str} (h : sysPromptEq s = none) :
    staticSingleM qc s = none := by
  simp [staticSingleM, h]

theorem sysParenM_none {s : Str} (h : sysPromptEq s = none) :
    sysParenM s = none := by
  simp [sysParenM, h]

theorem sysFormatM_none {s : Str} (h : sysPromptEq s = none) :
    sysFormatM s = none := by
  simp [sysFormatM, h]

theorem c7head_ex (pre post : Str) (hpre : pre.all c7safe = true) :
    ∃ x t2, ((pre ++ (braceL :: (lit "user_name" ++ (braceR :: post)))) ++
        ['"']) = x :: t2 ∧ x ≠ '"' := by
  cases pre with
  | nil => exact ⟨braceL, _, rfl, by decide⟩
  | cons p0 pt =>
    simp only [List.all_cons, Bool.and_eq_true] at hpre
    exact ⟨p0, _, rfl, c7safe_ne hpre.1 (by decide)⟩

theorem staticTripleM_dq_c7 (pre post : Str) (hpre : pre.all c7safe = true) :
    staticTripleM '"' (c7content pre post) = none := by
  obtain ⟨x, t2, hR, hx⟩ := c7head_ex pre post hpre
  rw [c7content_form, hR]
  simp [staticTripleM, sysPromptEq_gen, dropC, dropP, dropLs,
    startsWithL, List.isPrefixOf, hx]
  intro he
  exact absurd he.symm hx

theorem staticTripleM_sq_c7 (pre post : Str) :
    staticTripleM '\'' (c7content pre post) = none := by
  rw [c7content_form]
  simp [staticTripleM, sysPromptEq_gen, dropC, dropP, dropLs,
    startsWithL, List.isPrefixOf]

theorem staticSingleM_sq_c7 (pre post : Str) :
    staticSingleM '\'' (c7content pre post) = none := by
  rw [c7content_form]
  simp [staticSingleM, sysPromptEq_gen, dropC, dropP]

theorem sysParenM_c7 (pre post : Str) :
    sysParenM (c7content pre post) = none := by
  rw [c7content_form]
  simp [sysParenM, sysPromptEq_gen, dropC, dropP]

theorem sysFormatM_c7 (pre post : Str) :
    sysFormatM (c7content pre post) = none := by
  have hq : isQuote 'f' = false := by decide
  rw [c7content_form]
  simp [sysFormatM, sysPromptEq_gen, dropP, hq]

theorem c7content_none_all {α : Type} (m : Str → Option (Nat × α))
    (pre post : Str)
    (hno : ∀ i, i < (c7content pre post).length → 0 < i →
      sysPromptEq ((c7content pre post).drop i) = none)
    (hm : ∀ r, sysPromptEq r = none → m r = none)
    (hnil : m [] = none)
    (h0 : m (c7content pre post) = none) :
    ∀ i, m ((c7content pre post).drop i) = none := by
  intro i
  cases i with
  | zero => simpa using h0
  | succ j =>
    by_cases hlt : j + 1 < (c7content pre post).length
    · exact hm _ (hno (j + 1) hlt (by omega))
    · rw [List.drop_eq_nil_of_le (by omega)]
      exact hnil

theorem staticSingleM_dq_c7 (pre post : Str) (hpre : pre.all c7safe = true)
    (hpost : post.all c7safe = true) :
    staticSingleM '"' (c7content pre post) =
      some (28 + pre.length + post.length, c7capture pre post) := by
  have hu : (lit "user_name").length = 9 := by decide
  have hX : (pre ++ (braceL :: (lit "user_name" ++ (braceR :: post)))) ++
      ['"'] = pre ++ braceL :: (lit "user_name" ++ braceR ::
        (post ++ ['"'])) := by
    simp
  have htake2 : (pre ++ braceL :: (lit "user_name" ++ braceR ::
      (post ++ ['"']))).takeWhile (fun c => !decide (c = '"')) =
        pre ++ braceL :: (lit "user_name" ++ braceR :: post) := by
    rw [takeWhile_app_all _ (all_nbeq_of_all_safe hpre (by decide))]
    rw [List.takeWhile_cons_of_pos (by decide)]
    rw [takeWhile_app_all _ (by decide)]
    rw [List.takeWhile_cons_of_pos (by decide)]
    rw [takeWhile_app_all _ (all_nbeq_of_all_safe hpost (by decide))]
    rw [List.takeWhile_cons_of_neg (by decide)]
    simp
  have hdrop2 : List.drop (pre ++ braceL :: (lit "user_name" ++
      braceR :: post)).length (pre ++ braceL :: (lit "user_name" ++
        braceR :: (post ++ ['"']))) = ['"'] := by
    rw [← hX, List.drop_left]
  have hlen9 : (lit "user_name" ++ braceR :: post).length =
      9 + (post.length + 1) := by
    rw [List.length_append, hu, List.length_cons]
  have hd3 : List.drop (9 + (post.length + 1))
      (lit "user_name" ++ braceR :: (post ++ ['"'])) = ['"'] := by
    have hY : lit "user_name" ++ braceR :: (post ++ ['"']) =
        (lit "user_name" ++ braceR :: post) ++ ['"'] := by
      simp
    rw [hY, ← hlen9, List.drop_left]
  rw [c7content_form]
  simp [staticSingleM, sysPromptEq_gen, dropC, dropP, runOf, htake2,
    hdrop2, hd3, c7capture, List.length_append, List.length_cons, hu]
  omega

theorem braceVarM_head_none {x : Char} (t : Str) (hx : x ≠ braceL) :
    braceVarM (x :: t) = none := by
  simp [braceVarM, dropC, dropP, hx]

theorem braceVarM_suffix_none {l : Str} (h : ∀ x ∈ l, x ≠ braceL) :
    ∀ i, braceVarM (l.drop i) = none := by
  intro i
  cases hd : l.drop i with
  | nil => rfl
  | cons x t =>
    have hx : x ∈ l := (List.drop_sublist i l).mem
      (by rw [hd]; exact List.mem_cons_self x t)
    exact braceVarM_head_none t (h x hx)

theorem braceVarM_match (u2 : Str) :
    braceVarM (braceL :: (lit "user_name" ++ (braceR :: u2))) =
      some (11, lit "user_name") := by
  have htake : (lit "user_name" ++ (braceR :: u2)).takeWhile
      (fun c => !decide (c = braceR)) = lit "user_name" :=
    takeWhile_app_stop braceR u2 (by decide) (by decide)
  have hdrop : (lit "user_name" ++ (braceR :: u2)).dropWhile
      (fun c => !decide (c = braceR)) = braceR :: u2 :=
    dropWhile_app_stop braceR u2 (by decide) (by decide)
  have hu : (lit "user_name").length = 9 := by decide
  have hne : (lit "user_name").isEmpty = false := by decide
  simp [braceVarM, dropC, dropP, run1, runOf, htake, hdrop, hu, hne]
  have hl : lit "user_name" = 'u' :: lit "ser_name" := by decide
  have hu8 : (lit "ser_name").length = 8 := by decide
  have hub : ¬ ('u' = braceR) := by decide
  simp [hl, List.cons_append, hu8, hub]

theorem findAll_braceVar_c7 (pre post : Str) (hpre : pre.all c7safe = true)
    (hpost : post.all c7safe = true) :
    findAll (noB braceVarM) (c7capture pre post) =
      [{ start := pre.length + 2, len := 11, val := lit "user_name" }] := by
  have hsplit : c7capture pre post =
      ('f' :: '"' :: pre) ++
        (braceL :: (lit "user_name" ++ (braceR :: (post ++ ['"'])))) := by
    simp [c7capture]
  rw [hsplit]
  have hall1 : ∀ x ∈ ('f' :: '"' :: pre), x ≠ braceL := by
    intro x hx
    rcases List.mem_cons.mp hx with rfl | hx2
    · decide
    rcases List.mem_cons.mp hx2 with rfl | hx3
    · decide
    exact c7safe_ne (List.all_eq_true.mp hpre x hx3) (by decide)
  have hres := findAll_decomp_one braceVarM ('f' :: '"' :: pre)
    (braceL :: (lit "user_name" ++ (braceR :: (post ++ ['"'])))) 11
    (lit "user_name") ?_ (braceVarM_match (post ++ ['"'])) (by omega) ?_
  · rw [hres]
    simp [List.length_cons]
  · intro i hi
    rw [List.drop_append_of_le_length (by omega)]
    obtain ⟨x, t, hxt⟩ : ∃ x t, ('f' :: '"' :: pre).drop i = x :: t := by
      cases hd : ('f' :: '"' :: pre).drop i with
      | nil =>
        have := congrArg List.length hd
        rw [List.length_drop] at this
        simp at this
        simp only [List.length_cons] at hi
        omega
      | cons x t => exact ⟨x, t, rfl⟩
    rw [hxt, List.cons_append]
    have hx : x ∈ ('f' :: '"' :: pre) :=
      (List.drop_sublist i ('f' :: '"' :: pre)).mem
        (by rw [hxt]; exact List.mem_cons_self x t)
    exact braceVarM_head_none _ (hall1 x hx)
  · have hd11 : (braceL :: (lit "user_name" ++
        (braceR :: (post ++ ['"'])))).drop 11 = post ++ ['"'] := by
      rw [show braceL :: (lit "user_name" ++ (braceR :: (post ++ ['"']))) =
        (braceL :: (lit "user_name" ++ [braceR])) ++ (post ++ ['"']) from by
          simp]
      rw [List.drop_left' (by decide)]
    rw [hd11]
    apply braceVarM_suffix_none
    intro x hx
    rcases List.mem_append.mp hx with hx1 | hx2
    · exact c7safe_ne (List.all_eq_true.mp hpost x hx1) (by decide)
    rw [List.mem_singleton.mp hx2]
    decide

theorem realVariables_c7 (pre post : Str) (hpre : pre.all c7safe = true)
    (hpost : post.all c7safe = true) :
    realVariables (c7capture pre post) = [lit "user_name"] := by
  have hps : pyStrip (lit "user_name") = lit "user_name" := by decide
  have hid : isPyIdent (lit "user_name") = true := by decide
  unfold realVariables
  rw [findAll_braceVar_c7 pre post hpre hpost]
  simp [hps, hid]


theorem findAll_staticSingle_dq_c7 (pre post : Str)
    (hpre : pre.all c7safe = true) (hpost : post.all c7safe = true) :
    findAll (noB (staticSingleM '"')) (c7content pre post) =
      [{ start := 0, len := 28 + pre.length + post.length,
         val := c7capture pre post }] := by
  have h13 : (lit "system_prompt").length = 13 := by decide
  have hu : (lit "user_name").length = 9 := by decide
  have hlen : (c7content pre post).length = 28 + pre.length + post.length := by
    rw [c7content_form]
    simp only [List.length_append, List.length_cons, List.length_nil,
      h13, hu]
    omega
  apply findAll_single_head
  · exact staticSingleM_dq_c7 pre post hpre hpost
  · omega
  · intro i
    have hnil2 : (c7content pre post).drop
        (28 + pre.length + post.length) = [] :=
      List.drop_eq_nil_of_le (by omega)
    rw [hnil2, List.drop_nil]
    rfl

/-- Claim C7: for a file consisting of a `system_prompt` assignment to
an f-string whose body contains the placeholder `{user_name}` and no
other placeholder (the `c7content` family: arbitrary quote-, brace- and
keyword-free text around the placeholder, with `system_prompt`
occurring nowhere else), the staticness analysis reports
`is_static = false`, `dynamic_variables = ["user_name"]` and
`confidence = "high"`. -/
theorem claim_C7 (pre post : Str)
    (hpre : pre.all c7safe = true) (hpost : post.all c7safe = true)
    (hno : ∀ i, i < (c7content pre post).length → 0 < i →
      sysPromptEq ((c7content pre post).drop i) = none) :
    analyze_system_prompt_staticness (c7content pre post) =
      { is_static := false,
        confidence := lit "high",
        indicators := [fstringIndicator [lit "user_name"]],
        system_prompts_found := 1,
        dynamic_variables := [lit "user_name"] } := by
  have hT1 : findAll (noB (staticTripleM '"')) (c7content pre post) = [] :=
    findAll_nil_of_none _ _ (c7content_none_all _ pre post hno
      (fun r h => staticTripleM_none '"' h) rfl
      (staticTripleM_dq_c7 pre post hpre))
  have hT2 : findAll (noB (staticTripleM '\'')) (c7content pre post) = [] :=
    findAll_nil_of_none _ _ (c7content_none_all _ pre post hno
      (fun r h => staticTripleM_none '\'' h) rfl
      (staticTripleM_sq_c7 pre post))
  have hS2 : findAll (noB (staticSingleM '\'')) (c7content pre post) = [] :=
    findAll_nil_of_none _ _ (c7content_none_all _ pre post hno
      (fun r h => staticSingleM_none '\'' h) rfl
      (staticSingleM_sq_c7 pre post))
  have hP : findAll (noB sysParenM) (c7content pre post) = [] :=
    findAll_nil_of_none _ _ (c7content_none_all _ pre post hno
      (fun r h => sysParenM_none h) rfl (sysParenM_c7 pre post))
  have hS1 := findAll_staticSingle_dq_c7 pre post hpre hpost
  have hF : hasMatch sysFormatM (c7content pre post) = false := by
    unfold hasMatch
    rw [searchM_none _ _ (c7content_none_all _ pre post hno
      (fun r h => sysFormatM_none h) rfl (sysFormatM_c7 pre post))]
    rfl
  have hreal := realVariables_c7 pre post hpre hpost
  simp [analyze_system_prompt_staticness, hT1, hT2, hS1, hS2, hP, hF, hreal]


set_option maxRecDepth 100000 in
/-- Witness for claim C7 at `c7pre`/`c7post`: a concrete assistant
prompt around the `{user_name}` placeholder. -/
theorem claim_C7_witness :
    (c7pre.all c7safe = true) ∧ (c7post.all c7safe = true) ∧
    analyze_system_prompt_staticness (c7content c7pre c7post) =
      { is_static := false, confidence := lit "high",
        indicators := [fstringIndicator [lit "user_name"]],
        system_prompts_found := 1,
        dynamic_variables := [lit "user_name"] } :=
  ⟨by decide, by decide,
    claim_C7 c7pre c7post (by decide) (by decide) (by decide)⟩

/-! ## Claim C5: the balanced-parenthesis scanner matches its contract -/

theorem drop_cons_get (s : Str) (i : Nat) (ch : Char)
    (hc : s.get? i = some ch) : s.drop i = ch :: s.drop (i + 1) := by
  have hlt : i < s.length := by
    by_contra h
    rw [List.get?_eq_none.mpr (by omega)] at hc
    cases hc
  have he : s[i] = ch := by
    have h2 := List.getElem?_eq_getElem hlt
    rw [List.get?_eq_getElem? s i, h2] at hc
    exact Option.some.inj hc
  rw [List.drop_eq_getElem_cons hlt, he]

theorem skipStringDF_adequate (c : Str) (q : Char) :
    ∀ (f1 f2 pos : Nat), c.length - pos < f1 → c.length - pos < f2 →
      skipStringDF c q f1 pos = skipStringDF c q f2 pos := by
  intro f1
  induction f1 with
  | zero => intro f2 pos h1 _; omega
  | succ f ih =>
    intro f2 pos h1 h2
    cases f2 with
    | zero => omega
    | succ g =>
      cases hc : c.get? pos with
      | none => simp only [skipStringDF, hc]
      | some ch =>
        simp only [skipStringDF, hc]
        by_cases hcl : ch = q ∧ c.get? (pos - 1) ≠ some '\\'
        · rw [if_pos hcl, if_pos hcl]
        · rw [if_neg hcl, if_neg hcl]
          have hlt : pos < c.length := by
            by_contra hx
            rw [List.get?_eq_none.mpr (by omega)] at hc
            cases hc
          rw [ih g (pos + 1) (by omega) (by omega)]

theorem skipStringDF_succ (c : Str) (q : Char) (fuel pos : Nat) :
    skipStringDF c q (fuel + 1) pos =
      match c.get? pos with
      | none => 0
      | some ch =>
        if ch = q ∧ c.get? (pos - 1) ≠ some '\\' then 0
        else 1 + skipStringDF c q fuel (pos + 1) := rfl

theorem skipStringD_step (c : Str) (q : Char) (pos : Nat)
    (hlt : pos < c.length) :
    skipStringD c q pos =
      match c.get? pos with
      | none => 0
      | some ch =>
        if ch = q ∧ c.get? (pos - 1) ≠ some '\\' then 0
        else 1 + skipStringD c q (pos + 1) := by
  unfold skipStringD
  rw [skipStringDF_succ]
  cases hc : c.get? pos with
  | none => rfl
  | some ch =>
    show (if ch = q ∧ c.get? (pos - 1) ≠ some '\\' then 0
        else 1 + skipStringDF c q c.length (pos + 1)) =
      (if ch = q ∧ c.get? (pos - 1) ≠ some '\\' then 0
        else 1 + skipStringDF c q (c.length + 1) (pos + 1))
    by_cases hcl : ch = q ∧ c.get? (pos - 1) ≠ some '\\'
    · rw [if_pos hcl, if_pos hcl]
    · rw [if_neg hcl, if_neg hcl]
      rw [skipStringDF_adequate c q c.length (c.length + 1) (pos + 1)
        (by omega) (by omega)]

theorem refString_off (c : Str) (q : Char) (i depth : Nat) (prev : Char)
    (hge : c.length ≤ i) :
    refString (c.drop i) i depth q prev =
      refScan (c.drop (i + skipStringD c q i + 1))
        (i + skipStringD c q i + 1) depth := by
  have hnil : c.drop i = [] := List.drop_eq_nil_of_le hge
  have h0 : skipStringD c q i = 0 := by
    unfold skipStringD
    simp only [skipStringDF, List.get?_eq_none.mpr hge]
  rw [hnil, h0]
  have hnil2 : c.drop (i + 0 + 1) = [] := List.drop_eq_nil_of_le (by omega)
  rw [hnil2]
  simp only [refString, refScan]

theorem refString_skipStringD (c : Str) (q : Char) :
    ∀ (k i depth : Nat) (prev : Char), c.length - i ≤ k →
      c.get? (i - 1) = some prev →
      refString (c.drop i) i depth q prev =
        refScan (c.drop (i + skipStringD c q i + 1))
          (i + skipStringD c q i + 1) depth := by
  intro k
  induction k with
  | zero =>
    intro i depth prev hk _
    exact refString_off c q i depth prev (by omega)
  | succ k ih =>
    intro i depth prev hk hprev
    cases hc : c.get? i with
    | none => exact refString_off c q i depth prev (List.get?_eq_none.mp hc)
    | some ch =>
      have hlt : i < c.length := by
        by_contra hx
        rw [List.get?_eq_none.mpr (by omega)] at hc
        cases hc
      rw [drop_cons_get c i ch hc]
      simp only [refString]
      have hskip : skipStringD c q i =
          if ch = q ∧ c.get? (i - 1) ≠ some '\\' then 0
          else 1 + skipStringD c q (i + 1) := by
        have hstep := skipStringD_step c q i hlt
        simp only [hc] at hstep
        exact hstep
      by_cases hcl : ch = q ∧ prev ≠ '\\'
      · have hcl2 : ch = q ∧ c.get? (i - 1) ≠ some '\\' := by
          refine ⟨hcl.1, ?_⟩
          rw [hprev]
          intro hx
          exact hcl.2 (Option.some.inj hx)
        rw [if_pos hcl, hskip, if_pos hcl2]
      · have hcl2 : ¬ (ch = q ∧ c.get? (i - 1) ≠ some '\\') := by
          intro hx
          apply hcl
          refine ⟨hx.1, ?_⟩
          intro hp
          exact hx.2 (by rw [hprev, hp])
        rw [if_neg hcl, hskip, if_neg hcl2]
        have harith : i + (1 + skipStringD c q (i + 1)) + 1 =
            i + 1 + skipStringD c q (i + 1) + 1 := by omega
        rw [harith]
        exact ih (i + 1) depth ch (by omega) (by simpa using hc)

theorem fmpGoF_refScan (c : Str) :
    ∀ (fuel pos depth : Nat), c.length - pos < fuel →
      fmpGoF c fuel pos depth =
        (match refScan (c.drop pos) pos depth with
         | some q => (q : Int)
         | none => -1) := by
  intro fuel
  induction fuel with
  | zero => intro pos depth h; omega
  | succ fuel ih =>
    intro pos depth h
    cases hc : c.get? pos with
    | none =>
      have hnil : c.drop pos = [] :=
        List.drop_eq_nil_of_le (List.get?_eq_none.mp hc)
      simp only [fmpGoF, hc, hnil, refScan]
    | some ch =>
      have hlt : pos < c.length := by
        by_contra hx
        rw [List.get?_eq_none.mpr (by omega)] at hc
        cases hc
      rw [drop_cons_get c pos ch hc]
      simp only [fmpGoF, hc, refScan]
      by_cases h1 : ch = '('
      · rw [if_pos h1, if_pos h1]
        exact ih (pos + 1) (depth + 1) (by omega)
      · rw [if_neg h1, if_neg h1]
        by_cases h2 : ch = ')'
        · rw [if_pos h2, if_pos h2]
          by_cases hd : depth = 1
          · rw [if_pos hd, if_pos hd]
          · rw [if_neg hd, if_neg hd]
            exact ih (pos + 1) (depth - 1) (by omega)
        · rw [if_neg h2, if_neg h2]
          by_cases h3 : ch = '"' ∨ ch = '\''
          · rw [if_pos h3, if_pos h3]
            rw [refString_skipStringD c ch c.length (pos + 1) depth ch
              (by omega) (by simpa using hc)]
            exact ih (pos + 1 + skipStringD c ch (pos + 1) + 1) depth
              (by omega)
          · rw [if_neg h3, if_neg h3]
            exact ih (pos + 1) depth (by omega)

theorem refScan_result (c : Str) :
    ∀ (k : Nat),
      (∀ i depth q, c.length - i ≤ k →
        refScan (c.drop i) i depth = some q →
        c.get? q = some ')' ∧ i ≤ q) ∧
      (∀ i depth qc prev q, c.length - i ≤ k →
        refString (c.drop i) i depth qc prev = some q →
        c.get? q = some ')' ∧ i ≤ q) := by
  intro k
  induction k with
  | zero =>
    constructor
    · intro i depth q hk hs
      rw [List.drop_eq_nil_of_le (by omega)] at hs
      simp [refScan] at hs
    · intro i depth qc prev q hk hs
      rw [List.drop_eq_nil_of_le (by omega)] at hs
      simp [refString] at hs
  | succ k ih =>
    constructor
    · intro i depth q hk hs
      cases hc : c.get? i with
      | none =>
        rw [List.drop_eq_nil_of_le (List.get?_eq_none.mp hc)] at hs
        simp [refScan] at hs
      | some ch =>
        have hlt : i < c.length := by
          by_contra hx
          rw [List.get?_eq_none.mpr (by omega)] at hc
          cases hc
        rw [drop_cons_get c i ch hc] at hs
        simp only [refScan] at hs
        by_cases h1 : ch = '('
        · rw [if_pos h1] at hs
          obtain ⟨hq, hle⟩ := ih.1 (i + 1) (depth + 1) q (by omega) hs
          exact ⟨hq, by omega⟩
        · rw [if_neg h1] at hs
          by_cases h2 : ch = ')'
          · rw [if_pos h2] at hs
            by_cases hd : depth = 1
            · rw [if_pos hd] at hs
              obtain rfl : i = q := Option.some.inj hs
              exact ⟨by rw [hc, h2], le_refl i⟩
            · rw [if_neg hd] at hs
              obtain ⟨hq, hle⟩ := ih.1 (i + 1) (depth - 1) q (by omega) hs
              exact ⟨hq, by omega⟩
          · rw [if_neg h2] at hs
            by_cases h3 : ch = '"' ∨ ch = '\''
            · rw [if_pos h3] at hs
              obtain ⟨hq, hle⟩ := ih.2 (i + 1) depth ch ch q (by omega) hs
              exact ⟨hq, by omega⟩
            · rw [if_neg h3] at hs
              obtain ⟨hq, hle⟩ := ih.1 (i + 1) depth q (by omega) hs
              exact ⟨hq, by omega⟩
    · intro i depth qc prev q hk hs
      cases hc : c.get? i with
      | none =>
        rw [List.drop_eq_nil_of_le (List.get?_eq_none.mp hc)] at hs
        simp [refString] at hs
      | some ch =>
        have hlt : i < c.length := by
          by_contra hx
          rw [List.get?_eq_none.mpr (by omega)] at hc
          cases hc
        rw [drop_cons_get c i ch hc] at hs
        simp only [refString] at hs
        by_cases h1 : ch = qc ∧ prev ≠ '\\'
        · rw [if_pos h1] at hs
          obtain ⟨hq, hle⟩ := ih.1 (i + 1) depth q (by omega) hs
          exact ⟨hq, by omega⟩
        · rw [if_neg h1] at hs
          obtain ⟨hq, hle⟩ := ih.2 (i + 1) depth qc ch q (by omega) hs
          exact ⟨hq, by omega⟩

/-- Claim C5: on an opening parenthesis, `find_matching_paren` returns
exactly what the declarative spec scanner `matchParenRef` computes — the
position of the matching closing parenthesis (a `)` strictly after `p`)
under quoted-string skipping with backslash-escape handling, and the
sentinel `-1` when no matching closing parenthesis exists. -/
theorem claim_C5 (content : Str) (p : Nat)
    (h : content.get? p = some '(') :
    (find_matching_paren content p =
      match matchParenRef content p with
      | some q => (q : Int)
      | none => -1) ∧
    (∀ q, matchParenRef content p = some q →
      content.get? q = some ')' ∧ p < q) := by
  have hlt : p < content.length := by
    by_contra hx
    rw [List.get?_eq_none.mpr (by omega)] at h
    cases h
  constructor
  · unfold find_matching_paren
    rw [if_neg (by push_neg; exact ⟨by omega, h⟩)]
    unfold matchParenRef
    rw [if_pos h]
    unfold fmpGo
    exact fmpGoF_refScan content (content.length + 1) (p + 1) 1 (by omega)
  · intro q hq
    unfold matchParenRef at hq
    rw [if_pos h] at hq
    obtain ⟨hq2, hle⟩ :=
      (refScan_result content content.length).1 (p + 1) 1 q (by omega) hq
    exact ⟨hq2, by omega⟩

/-- Witness for claim C5 at `cC5wit = "(a'(b)'c)"`: the parenthesis at
position 3 sits inside a quoted string, so the opening parenthesis at
position 0 matches the closing one at position 8. -/
theorem claim_C5_witness :
    cC5wit.get? 0 = some '(' ∧
    (find_matching_paren cC5wit 0 =
      match matchParenRef cC5wit 0 with
      | some q => (q : Int)
      | none => -1) ∧
    matchParenRef cC5wit 0 = some 8 ∧
    find_matching_paren cC5wit 0 = 8 :=
  ⟨by decide, (claim_C5 cC5wit 0 (by decide)).1, by decide, by decide⟩

/-! ## Claim C8: line-number provenance -/

theorem lineFromSource_of_start {c : Str} {f : Finding} {pos : Nat}
    (hpos : pos ∈ allSourceStarts c)
    (hline : f.line = some (some (lineNum c pos))) :
    lineFromSource c f = true := by
  unfold lineFromSource
  rw [List.any_eq_true]
  exact ⟨pos, hpos, by simp [hline]⟩

theorem src_startsOf {α : Type} {m : Str → Option (Nat × α)} {c : Str}
    {r : MRes α} (hr : r ∈ findAll (noB m) c) : r.start ∈ startsOf m c := by
  unfold startsOf
  exact List.mem_map_of_mem _ hr

theorem src_model {c : Str} {r : MRes Unit} (hr : r ∈ modelIdMatches c) :
    r.start ∈ allSourceStarts c := by
  unfold allSourceStarts
  exact List.mem_append_left _ (List.mem_append_left _ (List.mem_append_left _
    (List.mem_append_left _ (List.mem_append_left _ (List.mem_append_left _
      (List.mem_append_left _ (List.mem_map_of_mem _ hr)))))))

theorem src_strands {c : Str} {r : MRes Str}
    (hr : r ∈ findAll (noB strandsM) c) : r.start ∈ allSourceStarts c := by
  unfold allSourceStarts
  exact List.mem_append_left _ (List.mem_append_left _ (List.mem_append_left _
    (List.mem_append_left _ (List.mem_append_left _ (List.mem_append_left _
      (List.mem_append_right _ (src_startsOf hr)))))))

theorem src_invoke {c : Str} {cp : String × String}
    {r : MRes Unit} (hcp : cp ∈ INVOKE_PATTERNS)
    (hr : r ∈ findAll (noB (invokeM cp.2)) c) :
    r.start ∈ allSourceStarts c := by
  unfold allSourceStarts
  refine List.mem_append_left _ (List.mem_append_left _ (List.mem_append_left _
    (List.mem_append_left _ (List.mem_append_left _
      (List.mem_append_right _ ?_)))))
  rw [List.mem_flatMap]
  exact ⟨cp, hcp, src_startsOf hr⟩

theorem src_maxTokens {c : Str} {r : MRes Nat}
    (hr : r ∈ findAll (noB maxTokensM) c) : r.start ∈ allSourceStarts c := by
  unfold allSourceStarts
  exact List.mem_append_left _ (List.mem_append_left _ (List.mem_append_left _
    (List.mem_append_left _ (List.mem_append_right _ (src_startsOf hr)))))

theorem src_nova {c : Str} {r : MRes Unit}
    (hr : r ∈ findAll (noB novaM) c) : r.start ∈ allSourceStarts c := by
  unfold allSourceStarts
  exact List.mem_append_left _ (List.mem_append_left _ (List.mem_append_left _
    (List.mem_append_right _ (src_startsOf hr))))

theorem src_prompt {c p : Str} {pi : PromptInfo}
    (hpi : pi ∈ find_prompts c p) : pi.start ∈ allSourceStarts c := by
  have hrw : find_prompts c p = find_prompts c [] := rfl
  rw [hrw] at hpi
  unfold allSourceStarts
  exact List.mem_append_left _ (List.mem_append_left _
    (List.mem_append_right _ (List.mem_map_of_mem _ hpi)))

theorem src_router {c : Str} {r : MRes Unit}
    (hr : r ∈ findAll (noB routerArnM) c) : r.start ∈ allSourceStarts c := by
  unfold allSourceStarts
  exact List.mem_append_left _
    (List.mem_append_right _ (src_startsOf hr))

theorem src_svc {c : Str} {m : Str → Option (Nat × Str)} {r : MRes Str}
    (hm : m ∈ SVC_TIER_MATCHERS) (hr : r ∈ findAll (noB m) c) :
    r.start ∈ allSourceStarts c := by
  unfold allSourceStarts
  refine List.mem_append_right _ ?_
  rw [List.mem_flatMap]
  exact ⟨m, hm, src_startsOf hr⟩


theorem headq_mem {α : Type} {l : List α} {a : α} (h : l.head? = some a) :
    a ∈ l := by
  cases l with
  | nil => cases h
  | cons x t =>
    rw [List.head?_cons, Option.some_inj] at h
    rw [← h]
    exact List.mem_cons_self x t

theorem find_prompts_line {c p : Str} {pi : PromptInfo}
    (hpi : pi ∈ find_prompts c p) : pi.line = lineNum c pi.start := by
  simp only [find_prompts] at hpi
  have hcase : ∀ (r : MRes Str),
      (if hasInstructionKw r.val && decide (r.val.length ≥ 200) then
        some ({ text := r.val, length := r.val.length,
                line := lineNum c r.start, start := r.start,
                endPos := r.start + r.len } : PromptInfo)
      else none) = some pi → pi.line = lineNum c pi.start := by
    intro r hmk
    by_cases hc : (hasInstructionKw r.val && decide (r.val.length ≥ 200)) = true
    · rw [if_pos hc] at hmk
      cases Option.some_inj.mp hmk
      rfl
    · rw [if_neg hc] at hmk
      cases hmk
  rcases List.mem_append.mp hpi with h12 | h3
  · rcases List.mem_append.mp h12 with h1 | h2
    · rw [List.mem_filterMap] at h1
      obtain ⟨r, _, hmk⟩ := h1
      exact hcase r hmk
    · rw [List.mem_filterMap] at h2
      obtain ⟨r, _, hmk⟩ := h2
      exact hcase r hmk
  · rw [List.mem_filterMap] at h3
    obtain ⟨r, _, hmk⟩ := h3
    exact hcase r hmk

theorem addFileLink_line (f : Finding) : (addFileLink f).line = f.line := by
  unfold addFileLink
  by_cases h : (f.line.isSome && !f.file.isEmpty) = true
  · rw [if_pos h]
  · rw [if_neg h]

theorem addFileLink_type (f : Finding) : (addFileLink f).type = f.type := by
  unfold addFileLink
  by_cases h : (f.line.isSome && !f.file.isEmpty) = true
  · rw [if_pos h]
  · rw [if_neg h]

theorem addFileLink_lineOK {c : Str} {f : Finding} (h : lineOK c f) :
    lineOK c (addFileLink f) := by
  unfold lineOK at h ⊢
  have hsrc : lineFromSource c (addFileLink f) = lineFromSource c f := by
    unfold lineFromSource
    rw [addFileLink_line]
  rw [addFileLink_line, addFileLink_type, hsrc]
  exact h

theorem strands_lineOK {c p : Str} {f : Finding}
    (hf : f ∈ detect_strands_bedrock_model c p) :
    f.type = lit "strands_bedrock_model_config" ∧
      lineFromSource c f = true := by
  simp only [detect_strands_bedrock_model] at hf
  rw [List.mem_filterMap] at hf
  obtain ⟨r, hr, hmk⟩ := hf
  cases hs : (searchM modelIdParamM r.val).map (fun x => x.2) with
  | none =>
    simp only [hs] at hmk
    cases hmk
  | some mid =>
    simp only [hs] at hmk
    cases Option.some_inj.mp hmk
    exact ⟨rfl, lineFromSource_of_start (src_strands hr) rfl⟩

theorem models_line {c p : Str} {f : Finding} (hf : f ∈ detect_models c p) :
    f.type = lit "bedrock_model_usage" ∧
      ∃ pos ∈ allSourceStarts c, f.line = some (some (lineNum c pos)) := by
  obtain ⟨r, hr, -, rfl⟩ := mem_detect_models hf
  exact ⟨rfl, r.start, src_model hr, by simp [modelFinding]⟩

theorem api_lineOK {c p : Str} {f : Finding} (hf : f ∈ detect_api_calls c p) :
    f.type = lit "bedrock_api_call" ∧ lineFromSource c f = true := by
  simp only [detect_api_calls] at hf
  rw [List.mem_flatMap] at hf
  obtain ⟨cp, hcp, hmem⟩ := hf
  rw [List.mem_map] at hmem
  obtain ⟨r, hr, rfl⟩ := hmem
  by_cases hcc : cp.1 = "chat_completions_create"
  · rw [if_pos hcc]
    exact ⟨rfl, lineFromSource_of_start (src_invoke hcp hr) rfl⟩
  · rw [if_neg hcc]
    exact ⟨rfl, lineFromSource_of_start (src_invoke hcp hr) rfl⟩

theorem token_lineOK {c p : Str} {f : Finding}
    (hf : f ∈ detect_token_patterns c p) :
    f.type = lit "token_configuration" ∧ lineFromSource c f = true := by
  simp only [detect_token_patterns] at hf
  rw [List.mem_map] at hf
  obtain ⟨r, hr, rfl⟩ := hf
  exact ⟨rfl, lineFromSource_of_start (src_maxTokens hr) rfl⟩

theorem nova_lineOK {c p : Str} {f : Finding}
    (hf : f ∈ detect_nova_explicit_caching_opportunity c p) :
    (f.type = lit "nova_explicit_caching_enabled" ∨
      f.type = lit "nova_explicit_caching_opportunity") ∧
      lineFromSource c f = true := by
  simp only [detect_nova_explicit_caching_opportunity] at hf
  cases hh : (findAll (noB novaM) c).head? with
  | none =>
    simp only [hh] at hf
    cases hf
  | some m0 =>
    simp only [hh] at hf
    have hm0 : m0 ∈ findAll (noB novaM) c := headq_mem hh
    by_cases hcache : (pyIn (lit "cachePoint") c ||
        pyIn (lit "cache_control") c) = true
    · rw [if_pos hcache] at hf
      rcases List.mem_singleton.mp hf with rfl
      exact ⟨Or.inl rfl, lineFromSource_of_start (src_nova hm0) rfl⟩
    · rw [if_neg hcache] at hf
      rw [List.mem_filterMap] at hf
      obtain ⟨pi, hpi, hmk⟩ := hf
      by_cases hest : pi.length / 4 < 150
      · rw [if_pos hest] at hmk
        cases hmk
      · rw [if_neg hest] at hmk
        cases Option.some_inj.mp hmk
        refine ⟨Or.inr rfl, lineFromSource_of_start (src_prompt hpi) ?_⟩
        have hl := find_prompts_line hpi
        simp [hl]

theorem crossRegion_lineOK {c p : Str} {f : Finding}
    (hf : f ∈ detect_caching_cross_region_antipattern c p) :
    f.type = lit "caching_cross_region_antipattern" ∧
      lineFromSource c f = true := by
  simp only [detect_caching_cross_region_antipattern] at hf
  by_cases hmk : (!(pyIn (lit "cachePoint") c ||
      (pyIn (lit "cache_control") c || pyIn (lit "cacheControl") c))) = true
  · rw [if_pos hmk] at hf
    cases hf
  · rw [if_neg hmk] at hf
    rw [List.mem_flatMap] at hf
    obtain ⟨mf, hmf, hcr⟩ := hf
    obtain ⟨r, hrm, -, rfl⟩ := mem_detect_models hmf
    simp only [crossRegionOf] at hcr
    cases hrp : ParsedModelId.region_prefix ((modelFinding c p r).parsed.getD default) with
    | none =>
      simp only [hrp] at hcr
      cases hcr
    | some rp =>
      simp only [hrp] at hcr
      by_cases h1 : rp = lit "global"
      · rw [if_pos h1] at hcr
        rcases List.mem_singleton.mp hcr with rfl
        refine ⟨rfl, lineFromSource_of_start (src_model hrm) ?_⟩
        simp [modelFinding]
      · rw [if_neg h1] at hcr
        by_cases h2 : (rp = lit "us" || rp = lit "eu" || rp = lit "apac") = true
        · rw [if_pos h2] at hcr
          rcases List.mem_singleton.mp hcr with rfl
          refine ⟨rfl, lineFromSource_of_start (src_model hrm) ?_⟩
          simp [modelFinding]
        · rw [if_neg h2] at hcr
          cases hcr

theorem dynamic_lineOK {c p : Str} {f : Finding}
    (hf : f ∈ detect_dynamic_system_prompts c p) :
    f.type = lit "dynamic_system_prompt" ∧
      f.line = some (firstLineWith c) := by
  simp only [detect_dynamic_system_prompts] at hf
  by_cases h1 : ((analyze_system_prompt_staticness c).system_prompts_found >
      0 && !(analyze_system_prompt_staticness c).is_static) = true
  · rw [if_pos h1] at hf
    by_cases h2 : (analyze_system_prompt_staticness c).dynamic_variables.isEmpty
      = true
    · rw [if_pos h2] at hf
      cases hf
    · rw [if_neg h2] at hf
      rcases List.mem_singleton.mp hf with rfl
      exact ⟨rfl, rfl⟩
  · rw [if_neg h1] at hf
    cases hf



theorem svc_lineOK {c p : Str} {f : Finding}
    (hf : f ∈ detect_service_tier c p) :
    (f.type = lit "bedrock_service_tier" ∨
      f.type = lit "bedrock_service_tier_missing") ∧
      lineFromSource c f = true := by
  simp only [detect_service_tier] at hf
  rcases List.mem_append.mp hf with h1 | h2
  · rw [List.mem_flatMap] at h1
    obtain ⟨m, hm, hmem⟩ := h1
    rw [List.mem_map] at hmem
    obtain ⟨r, hr, rfl⟩ := hmem
    exact ⟨Or.inl rfl, lineFromSource_of_start (src_svc hm hr) rfl⟩
  · rw [List.mem_flatMap] at h2
    obtain ⟨cp, hcp, hmem⟩ := h2
    rw [List.mem_filterMap] at hmem
    obtain ⟨r, hr, hmk⟩ := hmem
    by_cases hst : hasServiceTier
        (if find_matching_paren c (r.start + r.len - 1) = -1 then
          (c.drop r.start).take 300
        else (c.drop r.start).take
          ((find_matching_paren c (r.start + r.len - 1)).toNat + 1 -
            r.start)) = true
    · rw [if_pos hst] at hmk
      cases hmk
    · rw [if_neg hst] at hmk
      cases Option.some_inj.mp hmk
      exact ⟨Or.inr rfl, lineFromSource_of_start (src_invoke hcp hr) rfl⟩

theorem routingOpp1_line {p : Str} {mfs : List Finding} {f : Finding}
    (hf : f ∈ routingOpp1 p mfs) :
    ∃ g ∈ mfs, f.line = some (g.line.getD none) := by
  simp only [routingOpp1] at hf
  rw [List.mem_flatMap] at hf
  obtain ⟨fam, hfam, hmem⟩ := hf
  cases hfm : familyModels fam mfs with
  | nil =>
    simp only [hfm] at hmem
    cases hmem
  | cons m0 rest =>
    simp only [hfm] at hmem
    by_cases hdl :
        (dedupFirst ((m0 :: rest).map (fun m => m.model_id))).length > 1
    · rw [if_pos hdl] at hmem
      rcases List.mem_singleton.mp hmem with rfl
      have hm0 : m0 ∈ familyModels fam mfs := by
        rw [hfm]
        exact List.mem_cons_self m0 rest
      unfold familyModels at hm0
      rw [List.mem_map] at hm0
      obtain ⟨g, hg, hre⟩ := hm0
      rw [List.mem_filter] at hg
      refine ⟨g, hg.1, ?_⟩
      rw [← hre]
      simp [routeEntry]
    · rw [if_neg hdl] at hmem
      cases hmem

theorem premiumModels_line {mfs : List Finding} {m : RouteModel}
    (hm : m ∈ premiumModels mfs) : ∃ g ∈ mfs, m.line = g.line.getD none := by
  unfold premiumModels at hm
  rw [List.mem_filter] at hm
  obtain ⟨hm1, -⟩ := hm
  rw [List.mem_map] at hm1
  obtain ⟨g, hg, rfl⟩ := hm1
  exact ⟨g, hg, by simp [routeEntry]⟩

theorem routingOpp3_line {c p : Str} {l : List RouteModel} {f : Finding}
    (hf : f ∈ routingOpp3 c p l) : ∃ m ∈ l, f.line = some m.line := by
  induction l with
  | nil => cases hf
  | cons m rest ih =>
    rw [routingOpp3_cons] at hf
    by_cases h : (find_prompts c p).length ≥ 2 ∧
        2 ≤ listMax ((find_prompts c p).map
            (fun q => estimate_prompt_complexity q.text)) -
          listMin ((find_prompts c p).map
            (fun q => estimate_prompt_complexity q.text))
    · rw [if_pos h] at hf
      rcases List.mem_singleton.mp hf with rfl
      exact ⟨m, List.mem_cons_self m rest, rfl⟩
    · rw [if_neg h] at hf
      obtain ⟨m2, hm2, hl2⟩ := ih hf
      exact ⟨m2, List.mem_cons_of_mem m hm2, hl2⟩

theorem cvar_lineOK {c p : Str} {f : Finding}
    (hf : f ∈ analyze_prompt_complexity_variation c p) :
    lineFromSource c f = true := by
  simp only [analyze_prompt_complexity_variation] at hf
  by_cases hlen : (find_prompts c p).length < 2
  · rw [if_pos hlen] at hf
    cases hf
  · rw [if_neg hlen] at hf
    cases hls : find_prompts c p with
    | nil =>
      rw [hls] at hf
      cases hf
    | cons p0 rest =>
      rw [hls] at hf
      simp only at hf
      have hp0 : p0 ∈ find_prompts c p := by
        rw [hls]
        exact List.mem_cons_self p0 rest
      by_cases hrng : listMax (List.map (fun q => estimate_prompt_complexity
            q.text) (p0 :: rest)) -
          listMin (List.map (fun q => estimate_prompt_complexity q.text)
            (p0 :: rest)) ≥ 2
      · rw [if_pos hrng] at hf
        cases hmm : modelIdMatches c with
        | nil =>
          rw [hmm] at hf
          cases hf
        | cons m0 ms =>
          rw [hmm] at hf
          simp only at hf
          by_cases htier : ((analyze_model_tier
              ((c.drop m0.start).take m0.len)).tier = lit "premium" ∨
            (analyze_model_tier ((c.drop m0.start).take m0.len)).tier
              = lit "ultra-premium")
          · rw [if_pos (by simpa [Bool.or_eq_true_iff, decide_eq_true_iff]
              using htier)] at hf
            rcases List.mem_singleton.mp hf with rfl
            refine lineFromSource_of_start (src_prompt hp0) ?_
            have hl := find_prompts_line hp0
            simp [hl]
          · rw [if_neg (by simpa [Bool.or_eq_true_iff, decide_eq_true_iff]
              using htier)] at hf
            cases hf
      · rw [if_neg hrng] at hf
        cases hf

theorem routing_lineOK {c p : Str} {ex : List Finding} {f : Finding}
    (hex : ∀ g ∈ ex, g.type = lit "bedrock_model_usage" →
      ∃ pos ∈ allSourceStarts c, g.line = some (some (lineNum c pos)))
    (hf : f ∈ detect_prompt_routing c p ex) :
    lineFromSource c f = true := by
  simp only [detect_prompt_routing] at hf
  by_cases hr : (!(findAll (noB routerArnM) c).isEmpty) = true
  · rw [if_pos hr] at hf
    rw [List.mem_map] at hf
    obtain ⟨r, hrr, rfl⟩ := hf
    exact lineFromSource_of_start (src_router hrr) rfl
  · rw [if_neg hr] at hf
    by_cases hm : (routingModelFindings ex).isEmpty = true
    · rw [if_pos hm] at hf
      cases hf
    · rw [if_neg hm] at hf
      have hmodel : ∀ g ∈ routingModelFindings ex,
          ∃ pos ∈ allSourceStarts c,
            g.line = some (some (lineNum c pos)) := by
        intro g hg
        unfold routingModelFindings at hg
        rw [List.mem_filter] at hg
        exact hex g hg.1 (by simpa using hg.2)
      rcases List.mem_append.mp hf with h12 | h3
      · rcases List.mem_append.mp h12 with h1 | h2
        · obtain ⟨g, hg, hl⟩ := routingOpp1_line h1
          obtain ⟨pos, hpos, hgl⟩ := hmodel g hg
          refine lineFromSource_of_start hpos ?_
          rw [hl, hgl]
          rfl
        · exact cvar_lineOK h2
      · by_cases hpm : (!(premiumModels (routingModelFindings ex)).isEmpty &&
            (familiesOrder (routingModelFindings ex)).isEmpty) = true
        · rw [if_pos hpm] at h3
          obtain ⟨m, hm3, hl⟩ := routingOpp3_line h3
          obtain ⟨g, hg, hml⟩ := premiumModels_line hm3
          obtain ⟨pos, hpos, hgl⟩ := hmodel g hg
          refine lineFromSource_of_start hpos ?_
          rw [hl, hml, hgl]
          rfl
        · rw [if_neg hpm] at h3
          cases h3

theorem fs7_modelUsage (c p : Str) :
    ∀ g ∈ ((if has_bedrock_client c then [clientFinding p] else []) ++
        detect_strands_bedrock_model c p ++ detect_models c p ++
        detect_api_calls c p ++ detect_token_patterns c p ++
        detect_nova_explicit_caching_opportunity c p ++
        detect_caching_cross_region_antipattern c p ++
        detect_dynamic_system_prompts c p),
      g.type = lit "bedrock_model_usage" →
      ∃ pos ∈ allSourceStarts c, g.line = some (some (lineNum c pos)) := by
  intro g hg hmu
  rcases List.mem_append.mp hg with h6 | hdyn
  · rcases List.mem_append.mp h6 with h5 | hcross
    · rcases List.mem_append.mp h5 with h4 | hnova
      · rcases List.mem_append.mp h4 with h3x | htoken
        · rcases List.mem_append.mp h3x with h2x | hapi
          · rcases List.mem_append.mp h2x with h1x | hmodels
            · rcases List.mem_append.mp h1x with h0x | hstrands
              · by_cases hbc : has_bedrock_client c = true
                · rw [if_pos hbc] at h0x
                  rcases List.mem_singleton.mp h0x with rfl
                  rw [show (clientFinding p).type =
                    lit "bedrock_client_detected" from rfl] at hmu
                  exact absurd hmu (by decide)
                · rw [if_neg hbc] at h0x
                  cases h0x
              · rw [(strands_lineOK hstrands).1] at hmu
                exact absurd hmu (by decide)
            · exact (models_line hmodels).2
          · rw [(api_lineOK hapi).1] at hmu
            exact absurd hmu (by decide)
        · rw [(token_lineOK htoken).1] at hmu
          exact absurd hmu (by decide)
      · rcases (nova_lineOK hnova).1 with ht | ht
        · rw [ht] at hmu
          exact absurd hmu (by decide)
        · rw [ht] at hmu
          exact absurd hmu (by decide)
    · rw [(crossRegion_lineOK hcross).1] at hmu
      exact absurd hmu (by decide)
  · rw [(dynamic_lineOK hdyn).1] at hmu
    exact absurd hmu (by decide)

theorem analyze_lineOK (c p : Str) : ∀ f ∈ analyze c p, lineOK c f := by
  intro f hf
  simp only [analyze] at hf
  rw [List.mem_map] at hf
  obtain ⟨g, hg, rfl⟩ := hf
  apply addFileLink_lineOK
  unfold lineOK
  rcases List.mem_append.mp hg with h8 | hsvc
  · rcases List.mem_append.mp h8 with h7 | hrouting
    · rcases List.mem_append.mp h7 with h6 | hdyn
      · rcases List.mem_append.mp h6 with h5 | hcross
        · rcases List.mem_append.mp h5 with h4 | hnova
          · rcases List.mem_append.mp h4 with h3x | htoken
            · rcases List.mem_append.mp h3x with h2x | hapi
              · rcases List.mem_append.mp h2x with h1x | hmodels
                · rcases List.mem_append.mp h1x with h0x | hstrands
                  · by_cases hbc : has_bedrock_client c = true
                    · rw [if_pos hbc] at h0x
                      rcases List.mem_singleton.mp h0x with rfl
                      exact Or.inl rfl
                    · rw [if_neg hbc] at h0x
                      cases h0x
                  · exact Or.inr (Or.inr (strands_lineOK hstrands).2)
                · obtain ⟨-, pos, hpos, hl⟩ := models_line hmodels
                  exact Or.inr (Or.inr (lineFromSource_of_start hpos hl))
              · exact Or.inr (Or.inr (api_lineOK hapi).2)
            · exact Or.inr (Or.inr (token_lineOK htoken).2)
          · exact Or.inr (Or.inr (nova_lineOK hnova).2)
        · exact Or.inr (Or.inr (crossRegion_lineOK hcross).2)
      · exact Or.inr (Or.inl (dynamic_lineOK hdyn))
    · exact Or.inr (Or.inr (routing_lineOK (fs7_modelUsage c p) hrouting))
  · exact Or.inr (Or.inr (svc_lineOK hsvc).2)


/-- Claim C8 (amended): every finding of the aggregate scan either
carries no `line` key, or is the `dynamic_system_prompt` finding — whose
line is the 1-based index of the first line containing both
`system_prompt` and `=` (a line search, not the match-offset rule) — or
its line equals the count of newlines before a recorded match start plus
one. -/
theorem claim_C8 (content file_path : Str) (f : Finding)
    (hf : f ∈ analyze content file_path) : lineOK content f :=
  analyze_lineOK content file_path f hf

set_option maxRecDepth 100000 in
/-- Witness for claim C8 at `cC8`. -/
theorem claim_C8_witness :
    wC8f ∈ analyze cC8 wPath ∧ lineOK cC8 wC8f :=
  ⟨by decide, claim_C8 cC8 wPath wC8f (by decide)⟩

set_option maxRecDepth 100000 in
/-- Counterexample to claim C8 as stated: on `cC8` the single finding
(the dynamic system prompt) carries line 1 — the first line containing
both `system_prompt` and `=`, inside a plain string on line 1 — while
the f-string assignment match that produced it starts on line 2. -/
theorem claim_C8_counterexample :
    (analyze cC8 wPath).map (fun f => (f.type, f.line)) =
      [(lit "dynamic_system_prompt", some (some 1))] ∧
    (findAll (noB (staticSingleM '"')) cC8).map
      (fun r => lineNum cC8 r.start) = [2] := by
  decide

/-! ## Claim C1: the aggregate scan -/

/-- Claim C1: the aggregate scan is total and compositional — for every
content and path it returns exactly the concatenation of every
analyzer's findings (each phase contributes independently of the
others, the routing phase receiving the findings collected so far),
with file links attached at the end; a model-ID match becomes a
`bedrock_model_usage` finding exactly when it survives the
false-positive suppression check, and every emitted model finding
carries a parse result (the best-effort parser never fails). -/
theorem claim_C1 (content file_path : Str) :
    (analyze content file_path =
      ((if has_bedrock_client content then [clientFinding file_path]
          else []) ++
        detect_strands_bedrock_model content file_path ++
        detect_models content file_path ++
        detect_api_calls content file_path ++
        detect_token_patterns content file_path ++
        detect_nova_explicit_caching_opportunity content file_path ++
        detect_caching_cross_region_antipattern content file_path ++
        detect_dynamic_system_prompts content file_path ++
        detect_prompt_routing content file_path
          ((if has_bedrock_client content then [clientFinding file_path]
              else []) ++
            detect_strands_bedrock_model content file_path ++
            detect_models content file_path ++
            detect_api_calls content file_path ++
            detect_token_patterns content file_path ++
            detect_nova_explicit_caching_opportunity content file_path ++
            detect_caching_cross_region_antipattern content file_path ++
            detect_dynamic_system_prompts content file_path) ++
        detect_service_tier content file_path).map addFileLink) ∧
    (∀ f, f ∈ detect_models content file_path ↔
      ∃ r ∈ modelIdMatches content,
        is_likely_false_positive content r.start (r.start + r.len) = false ∧
        f = modelFinding content file_path r) ∧
    (∀ f ∈ detect_models content file_path,
      f.parsed.isSome = true ∧ f.model_id.isSome = true) := by
  refine ⟨rfl, ?_, ?_⟩
  · intro f
    constructor
    · exact mem_detect_models
    · rintro ⟨r, hr, hsup, rfl⟩
      unfold detect_models
      rw [List.mem_filterMap]
      refine ⟨r, hr, ?_⟩
      rw [if_neg (by simp [hsup])]
  · intro f hf
    obtain ⟨r, -, -, rfl⟩ := mem_detect_models hf
    exact ⟨by simp [modelFinding], by simp [modelFinding]⟩

set_option maxRecDepth 100000 in
/-- Witness for claim C1 at `cC1wit`: one plain model identifier; the
match survives suppression and its finding carries a parse. -/
theorem claim_C1_witness :
    wC1f ∈ detect_models cC1wit wPath ∧
    wC1f.parsed.isSome = true ∧ wC1f.model_id.isSome = true :=
  ⟨by decide, (claim_C1 cC1wit wPath).2.2 wC1f (by decide)⟩

end BD
